import Mathlib

/-! Smart Calendar website script (`script.js`): a shallow embedding.

The script is a collection of DOM event listeners.  Each listener is embedded
as a function on the part of the page state it reads and writes:

* `classList` operations follow `DOMTokenList` (`add`, `remove`, `toggle`,
  `contains`) on an ordered list of class names;
* attributes that may be absent are `Option String`;
* a JavaScript exception is a value of `JSError`.
-/

namespace SmartCalendar

/-! ## DOM token lists -/

/-- The method `classList.contains(c)`. -/
def classListContains (cs : List String) (c : String) : Bool :=
  decide (c ∈ cs)

/-- The method `classList.add(c)`: appends the token unless it is already there. -/
def classListAdd (cs : List String) (c : String) : List String :=
  if c ∈ cs then cs else cs ++ [c]

/-- The method `classList.remove(c)`. -/
def classListRemove (cs : List String) (c : String) : List String :=
  cs.filter (fun x => decide (x ≠ c))

/-- The method `classList.toggle(c)`: removes the token when present, adds it otherwise. -/
def classListToggle (cs : List String) (c : String) : List String :=
  if c ∈ cs then classListRemove cs c else cs ++ [c]

/-! ## Mobile navigation (lines 5-30) -/

/-- The state the navigation listeners touch: the `aria-expanded` attribute of
`.hamburger` and the class list of `.nav-links`. -/
structure NavState where
  ariaExpanded : Option String
  navLinks : List String
deriving DecidableEq, Repr

/-- The events the three listeners installed under `if (hamburger && navLinks)`
react to. -/
inductive NavEvent where
  | hamburgerClick
  | linkClick
  | keydown (key : String)
deriving DecidableEq, Repr

/-- The conversion `String(b)` that `setAttribute` applies to a boolean argument. -/
def boolToAttr (b : Bool) : String :=
  if b then "true" else "false"

/-- Click listener of `.hamburger` (lines 9-13). -/
def hamburgerClick (s : NavState) : NavState :=
  let isExpanded := decide (s.ariaExpanded = some "true")
  { ariaExpanded := some (boolToAttr (!isExpanded))
    navLinks := classListToggle s.navLinks "active" }

/-- Click listener of every link inside `.nav-links` (lines 17-20). -/
def linkClick (s : NavState) : NavState :=
  { ariaExpanded := some "false"
    navLinks := classListRemove s.navLinks "active" }

/-- Document `keydown` listener (lines 24-29). -/
def navKeydown (key : String) (s : NavState) : NavState :=
  if key = "Escape" ∧ classListContains s.navLinks "active" = true then
    { ariaExpanded := some "false"
      navLinks := classListRemove s.navLinks "active" }
  else s

/-- One navigation event. -/
def navStep (s : NavState) : NavEvent → NavState
  | .hamburgerClick => hamburgerClick s
  | .linkClick => linkClick s
  | .keydown key => navKeydown key s

/-- A finite sequence of navigation events, oldest first. -/
def navRun (s : NavState) (evs : List NavEvent) : NavState :=
  evs.foldl navStep s

/-- The panel is open: `.nav-links` has class `active`. -/
def NavState.isOpen (s : NavState) : Prop := "active" ∈ s.navLinks

instance (s : NavState) : Decidable s.isOpen := by
  unfold NavState.isOpen; infer_instance

/-- The control and the panel agree: `aria-expanded` is `"true"` exactly when
the panel has class `active`. -/
def NavState.mirrored (s : NavState) : Prop :=
  s.ariaExpanded = some "true" ↔ s.isOpen

instance (s : NavState) : Decidable s.mirrored := by
  unfold NavState.mirrored; infer_instance

/-! ## Navbar shadow on scroll (lines 33-47) -/

/-- State of the scroll listener: the closure variable `ticking`, the number of
callbacks handed to `requestAnimationFrame` that have not run yet, and
`navbar.style.boxShadow`.  `scheduled` and `writes` count the calls of
`requestAnimationFrame` and the assignments to `boxShadow` made so far. -/
structure ShadowState where
  ticking : Bool
  pending : Nat
  boxShadow : Option String
  scheduled : Nat
  writes : Nat
deriving DecidableEq, Repr

/-- The events of the scroll-shadow component: a `scroll` event, and an
animation frame at which `window.pageYOffset` has the given value. -/
inductive ShadowEvent where
  | scroll
  | frame (pageYOffset : ℚ)
deriving DecidableEq, Repr

/-- State when the listener is installed (line 35). -/
def shadowInit (boxShadow : Option String) : ShadowState :=
  { ticking := false, pending := 0, boxShadow := boxShadow, scheduled := 0, writes := 0 }

/-- The style written when the page is scrolled past the threshold. -/
def shadowOn : String := "0 4px 6px -1px rgb(0 0 0 / 0.1)"

/-- The `scroll` listener (lines 36-46). -/
def onScroll (s : ShadowState) : ShadowState :=
  if !s.ticking then
    { s with pending := s.pending + 1, scheduled := s.scheduled + 1, ticking := true }
  else s

/-- The callback passed to `requestAnimationFrame` (lines 38-43). -/
def frameCallback (pageYOffset : ℚ) (s : ShadowState) : ShadowState :=
  { s with
    boxShadow := some (if pageYOffset > 50 then shadowOn else "none")
    ticking := false
    writes := s.writes + 1 }

/-- An animation frame: the browser runs every pending callback. -/
def onFrame (pageYOffset : ℚ) (s : ShadowState) : ShadowState :=
  (frameCallback pageYOffset)^[s.pending] { s with pending := 0 }

/-- One event of the scroll-shadow component. -/
def shadowStep (s : ShadowState) : ShadowEvent → ShadowState
  | .scroll => onScroll s
  | .frame y => onFrame y s

/-- A finite interleaving of scroll events and frames, oldest first. -/
def shadowRun (s : ShadowState) (evs : List ShadowEvent) : ShadowState :=
  evs.foldl shadowStep s

/-- A burst of `n` scroll events with no frame in between. -/
def scrollBurst (n : Nat) (s : ShadowState) : ShadowState :=
  onScroll^[n] s

/-- The invariant of the throttle: at most one callback is pending, and
`ticking` is set exactly when one is. -/
def ShadowState.throttled (s : ShadowState) : Prop :=
  s.pending ≤ 1 ∧ (s.ticking = true ↔ s.pending = 1)

/-! ## Page visibility (lines 259-266) -/

/-- The `visibilitychange` listener; `hidden` is `document.hidden` and the
state is `document.body.classList`. -/
def visibilitychange (body : List String) (hidden : Bool) : List String :=
  if hidden then classListAdd body "page-hidden"
  else classListRemove body "page-hidden"

/-- A sequence of `visibilitychange` events, each with the value of
`document.hidden` at that time. -/
def visibilityRun (body : List String) (evs : List Bool) : List String :=
  evs.foldl visibilitychange body


/-! ## JavaScript values and exceptions -/

/-- The exceptions the script can raise. -/
inductive JSError where
  | typeError (msg : String)
  | referenceError (msg : String)
  | domSyntaxError (msg : String)
deriving DecidableEq, Repr

/-- What a property read on the object literal `pageFlow` can give: `undefined`,
one of the arrays of the literal, a function inherited from `Object.prototype`,
or `Object.prototype` itself (through the `__proto__` accessor). -/
inductive JSValue where
  | undefined
  | array (items : List String)
  | func (name : String)
  | objectPrototype
deriving DecidableEq, Repr

/-- JavaScript truthiness of the values above: only `undefined` is falsy. -/
def JSValue.truthy : JSValue → Bool
  | .undefined => false
  | _ => true

/-- The operator `a || b`. -/
def JSValue.or (a b : JSValue) : JSValue :=
  if a.truthy then a else b

/-! ## Prefetching (lines 147-165) -/

/-- A node appended to `document.head`. -/
inductive HeadNode where
  | link (rel href : String)
  | style (textContent : String)
deriving DecidableEq, Repr

/-- The method `String.prototype.split` with a one-character separator. -/
def jsSplit (sep : Char) : List Char → List (List Char)
  | [] => [[]]
  | c :: cs =>
    if c = sep then [] :: jsSplit sep cs
    else
      match jsSplit sep cs with
      | [] => [[c]]
      | seg :: segs => (c :: seg) :: segs

/-- The method `Array.prototype.pop`, as far as its return value goes:
`undefined` (here `none`) on an empty array. -/
def jsPop (xs : List (List Char)) : Option (List Char) :=
  xs.getLast?

/-- Line 149: `window.location.pathname.split('/').pop() || 'index.html'`.
The empty string and `undefined` are falsy. -/
def currentPage (pathname : String) : String :=
  match jsPop (jsSplit '/' pathname.data) with
  | none => "index.html"
  | some seg => if seg = [] then "index.html" else String.mk seg

/-- The own properties of the object literal `pageFlow` (lines 150-156). -/
def pageFlow : List (String × List String) :=
  [ ("index.html", ["solution.html", "problem.html"]),
    ("problem.html", ["solution.html"]),
    ("solution.html", ["market.html"]),
    ("market.html", ["roadmap.html"]),
    ("roadmap.html", ["contact.html"]) ]

/-- The function-valued properties every plain object inherits from
`Object.prototype`. -/
def objectPrototypeMethods : List String :=
  [ "constructor", "__defineGetter__", "__defineSetter__", "hasOwnProperty",
    "__lookupGetter__", "__lookupSetter__", "isPrototypeOf", "propertyIsEnumerable",
    "toString", "valueOf", "toLocaleString" ]

/-- The property read `pageFlow[key]`: own properties first, then the
prototype chain, which for an object literal is `Object.prototype`. -/
def pageFlowGet (key : String) : JSValue :=
  match pageFlow.lookup key with
  | some successors => .array successors
  | none =>
    if key ∈ objectPrototypeMethods then .func key
    else if key = "__proto__" then .objectPrototype
    else .undefined

/-- The body of the `forEach` callback at lines 159-164: one `link` element
with `rel = 'prefetch'` and `href = page`, appended to the head. -/
def appendPrefetch (head : List HeadNode) (page : String) : List HeadNode :=
  head ++ [HeadNode.link "prefetch" page]

/-- The call `nextPages.forEach(...)` of line 159.  Only arrays have a `forEach`
method; on a function or on `Object.prototype` the property is `undefined` and
calling it raises a `TypeError`. -/
def nextPagesForEach (nextPages : JSValue) (head : List HeadNode) :
    Except JSError (List HeadNode) :=
  match nextPages with
  | .array pages => .ok (pages.foldl appendPrefetch head)
  | .undefined => .error (.typeError "Cannot read properties of undefined (reading 'forEach')")
  | .func _ => .error (.typeError "nextPages.forEach is not a function")
  | .objectPrototype => .error (.typeError "nextPages.forEach is not a function")

/-- The function `preloadCriticalResources` on the document head, given
`window.location.pathname`. -/
def preloadCriticalResources (pathname : String) (head : List HeadNode) :
    Except JSError (List HeadNode) :=
  let nextPages := (pageFlowGet (currentPage pathname)).or (.array [])
  nextPagesForEach nextPages head

/-- The prefetch links appended to a head. -/
def prefetchLinks (pages : List String) : List HeadNode :=
  pages.map (HeadNode.link "prefetch")

/-! ## The page -/

/-- The capabilities of the runtime the script probes. -/
structure Runtime where
  /-- The test `'loading' in HTMLImageElement.prototype`. -/
  nativeLazyLoading : Bool
  /-- The test `'IntersectionObserver' in window`. -/
  intersectionObserver : Bool
  /-- The test `'PerformanceObserver' in window`. -/
  performanceObserver : Bool
  /-- The entry types for which `PerformanceObserver.observe` does not throw. -/
  observableTypes : List String
deriving DecidableEq, Repr

/-- An `img` element. -/
structure Img where
  /-- The element matches `img[loading="lazy"]`. -/
  isLazy : Bool
  /-- The attribute `data-src`, read through `img.dataset.src`. -/
  dataSrc : Option String
  src : Option String
  classList : List String
deriving DecidableEq, Repr

/-- Any other element of the document. -/
structure Element where
  id : Option String
  classList : List String
  offsetTop : Int
  tabindex : Option String
deriving DecidableEq, Repr

/-- The state of the page the `DOMContentLoaded` handler and the observers work
on.  Elements and images are named by their position in document order.
`visibleAdds` records the target of every call `classList.add('visible')`, and
`calls` the functions the handler has called, both oldest first. -/
structure Page where
  runtime : Runtime
  /-- The document is in quirks mode, where class and ID selectors match
  ASCII case-insensitively. -/
  quirksMode : Bool
  pathname : String
  hostname : String
  /-- The `offsetHeight` of `.navbar`, when the page has one (line 33). -/
  navbar : Option Int
  head : List HeadNode
  images : List Img
  /-- The targets of `imageObserver`. -/
  imageObserved : List Nat
  elements : List Element
  /-- The targets of `fadeInObserver`. -/
  fadeObserved : List Nat
  visibleAdds : List Nat
  /-- The `href` attribute of every `a` element. -/
  anchors : List String
  /-- The anchors that carry the smooth-scroll click listener. -/
  smoothScroll : List Nat
  /-- The entry types the vitals observers are subscribed to. -/
  vitals : List String
  console : List String
  calls : List String
deriving DecidableEq, Repr

/-- A page with nothing in it, in the given runtime and in standards mode. -/
def Page.blank (runtime : Runtime) (pathname hostname : String) : Page :=
  { runtime := runtime, quirksMode := false,
    pathname := pathname, hostname := hostname, navbar := none,
    head := [], images := [], imageObserved := [], elements := [], fadeObserved := [],
    visibleAdds := [], anchors := [], smoothScroll := [], vitals := [], console := [],
    calls := [] }

/-- ASCII lower-casing: only `A`-`Z` change. -/
def asciiLower (s : String) : String :=
  String.mk (s.data.map Char.toLower)

/-- A class or ID selector with name `name` matches the token `token`: exactly
in a standards-mode document, ASCII case-insensitively in quirks mode. -/
def identMatches (quirks : Bool) (name token : String) : Bool :=
  if quirks then asciiLower token == asciiLower name else token == name

/-- Replace the element at a position; positions outside the list change nothing. -/
def updateAt {α : Type} (f : α → α) : Nat → List α → List α
  | _, [] => []
  | 0, x :: xs => f x :: xs
  | n + 1, x :: xs => x :: updateAt f n xs

/-- The positions of the members of a list that satisfy a test, in order. -/
def indicesWhere {α : Type} (test : α → Bool) (xs : List α) : List Nat :=
  (List.range xs.length).filter (fun i => (xs[i]?.map test).getD false)

/-- The method `observer.observe(target)`: a target is observed at most once. -/
def observe (targets : List Nat) (target : Nat) : List Nat :=
  if target ∈ targets then targets else targets ++ [target]

/-- The method `observer.unobserve(target)`. -/
def unobserve (targets : List Nat) (target : Nat) : List Nat :=
  targets.filter (fun t => decide (t ≠ target))

/-- An `IntersectionObserverEntry`, as far as the callbacks read it. -/
structure Entry where
  target : Nat
  isIntersecting : Bool
deriving DecidableEq, Repr

/-! ## Lazy loading (lines 50-88) -/

/-- Truthiness of `img.dataset.src`: the attribute is present and not empty. -/
def Img.hasDataSrc (img : Img) : Bool :=
  match img.dataSrc with
  | some v => decide (v ≠ "")
  | none => false

/-- Lines 66-70 on the image itself: consume `data-src` when it is truthy, then
add the class `loaded`. -/
def loadImage (img : Img) : Img :=
  let img := if img.hasDataSrc then { img with src := img.dataSrc, dataSrc := none } else img
  { img with classList := classListAdd img.classList "loaded" }

/-- The body of `entries.forEach` in the `imageObserver` callback (lines 63-73). -/
def imageEntry (p : Page) (entry : Entry) : Page :=
  if entry.isIntersecting then
    { p with
      images := updateAt loadImage entry.target p.images
      imageObserved := unobserve p.imageObserved entry.target }
  else p

/-- The `imageObserver` callback. -/
def imageCallback (p : Page) (entries : List Entry) : Page :=
  entries.foldl imageEntry p

/-- A sequence of `imageObserver` callbacks, oldest first. -/
def imageCallbacks (p : Page) (callbacks : List (List Entry)) : Page :=
  callbacks.foldl imageCallback p

/-- The immediate fallback of lines 82-86 on one image: `src` is assigned, the
attribute `data-src` stays. -/
def loadImmediately (img : Img) : Img :=
  if img.hasDataSrc then { img with src := img.dataSrc } else img

/-- The images matched by `document.querySelectorAll('img[loading="lazy"]')`. -/
def lazyImages (p : Page) : List Nat :=
  indicesWhere Img.isLazy p.images

/-- The function `initLazyLoading`.  With native support it only logs; with an
`IntersectionObserver` it observes every lazy image with a new observer;
otherwise it loads every lazy image at once. -/
def initLazyLoading (p : Page) : Page :=
  if p.runtime.nativeLazyLoading then
    { p with console := p.console ++ ["Native lazy loading supported"] }
  else if p.runtime.intersectionObserver then
    { p with imageObserved := (lazyImages p).foldl observe [] }
  else
    { p with
      images := (lazyImages p).foldl (fun imgs i => updateAt loadImmediately i imgs) p.images }

/-! ## Scroll animations (lines 91-117) -/

/-- The classes of the selector list of lines 108-110. -/
def fadeSelectors : List String :=
  [ "problem-card", "feature-row", "market-card", "trend-card", "confidence-item",
    "stream-card", "gallery-item", "why-item", "cost-item", "nav-card", "milestone-card",
    "b2b-feature", "timeline-item", "value-point" ]

/-- The element matches the selector list: one of its classes is matched by
one of the class selectors. -/
def Element.matchesFade (quirks : Bool) (e : Element) : Bool :=
  fadeSelectors.any (fun c => e.classList.any (fun token => identMatches quirks c token))

/-- The elements `document.querySelectorAll` returns at lines 107-111. -/
def animatedElements (p : Page) : List Nat :=
  indicesWhere (Element.matchesFade p.quirksMode) p.elements

/-- The method `el.classList.add(c)` on an element. -/
def Element.addClass (c : String) (e : Element) : Element :=
  { e with classList := classListAdd e.classList c }

/-- The method `el.classList.add(c)` on the element at a position. -/
def addClass (c : String) (i : Nat) (elements : List Element) : List Element :=
  updateAt (Element.addClass c) i elements

/-- The body of `entries.forEach` in the `fadeInObserver` callback (lines 98-103). -/
def fadeEntry (p : Page) (entry : Entry) : Page :=
  if entry.isIntersecting then
    { p with
      elements := addClass "visible" entry.target p.elements
      visibleAdds := p.visibleAdds ++ [entry.target]
      fadeObserved := unobserve p.fadeObserved entry.target }
  else p

/-- The `fadeInObserver` callback. -/
def fadeCallback (p : Page) (entries : List Entry) : Page :=
  entries.foldl fadeEntry p

/-- A sequence of `fadeInObserver` callbacks, oldest first. -/
def fadeCallbacks (p : Page) (callbacks : List (List Entry)) : Page :=
  callbacks.foldl fadeCallback p

/-- Lines 113-116: every matched element gets the class `fade-in` and is
observed by the new `fadeInObserver`. -/
def observeAnimated (p : Page) : Page :=
  { p with
    elements := (animatedElements p).foldl (fun els i => addClass "fade-in" i els) p.elements
    fadeObserved := (animatedElements p).foldl observe [] }

/-- The function `initScrollAnimations`.  The constructor is named without a
capability test, so without `IntersectionObserver` line 97 raises a
`ReferenceError` before anything else happens. -/
def initScrollAnimations (p : Page) : Except JSError Page :=
  if p.runtime.intersectionObserver then .ok (observeAnimated p)
  else .error (.referenceError "IntersectionObserver is not defined")

/-- The observer hands a callback entries only for targets it observes: every
entry of the batch targets an element that is observed when the callback
starts.  The batch is fixed before the callback runs (lines 97-98), so it may
hold several records of one target. -/
def deliveredEntries (p : Page) (entries : List Entry) : Bool :=
  entries.all (fun entry => decide (entry.target ∈ p.fadeObserved))

/-- The same condition over a sequence of callbacks, each checked against the
observer as the callbacks before it left it. -/
def delivered (p : Page) : List (List Entry) → Bool
  | [] => true
  | cb :: rest => deliveredEntries p cb && delivered (fadeCallback p cb) rest

/-- Some entry of the list reports the target as intersecting. -/
def intersects (target : Nat) (entries : List Entry) : Bool :=
  entries.any (fun e => e.isIntersecting && e.target == target)

/-- The number of entries of the list that report the target as intersecting. -/
def intersections (target : Nat) (entries : List Entry) : Nat :=
  entries.countP (fun e => e.isIntersecting && e.target == target)

/-! ## Smooth scroll (lines 120-143) -/

/-- A code point that may start a CSS identifier: a letter, `_`, or non-ASCII. -/
def isIdentStart (c : Char) : Bool :=
  c.isAlpha || c == '_' || decide (128 ≤ c.toNat)

/-- A code point that may continue a CSS identifier. -/
def isIdentChar (c : Char) : Bool :=
  isIdentStart c || c.isDigit || c == '-'

/-- The text is a CSS identifier written without escapes. -/
def isCssIdent : List Char → Bool
  | [] => false
  | '-' :: '-' :: rest => rest.all isIdentChar
  | '-' :: c :: rest => isIdentStart c && rest.all isIdentChar
  | c :: rest => isIdentStart c && rest.all isIdentChar

/-- The first element, in document order, that the ID selector `#name`
matches. -/
def findId (quirks : Bool) (elements : List Element) (name : String) : Option Nat :=
  elements.findIdx? (fun e => (e.id.map (identMatches quirks name)).getD false)

/-- The method `document.querySelector` on the selectors the click listener can
pass.  `#name` with `name` a CSS identifier is an ID selector.  `#` followed by
a digit is a hash token that is not an identifier, which no selector admits:
the call raises a `SyntaxError`.  Every other selector text is answered by
`other`, which stands for the rest of the selector language. -/
def querySelector (quirks : Bool) (elements : List Element)
    (other : String → Except JSError (Option Nat)) (selector : String) :
    Except JSError (Option Nat) :=
  match selector.data with
  | '#' :: name =>
    if isCssIdent name then .ok (findId quirks elements (String.mk name))
    else if (name.head?.map Char.isDigit).getD false then
      .error (.domSyntaxError (selector ++ " is not a valid selector"))
    else other selector
  | _ => other selector

/-- What the click listener does to the event, the window and the target, in
the order of the calls. -/
inductive ClickEffect where
  | preventDefault
  | scrollTo (top : Int) (behavior : String)
  | setAttribute (target : Nat) (name value : String)
  | focus (target : Nat)
deriving DecidableEq, Repr

/-- The outcome of one run of the click listener. -/
structure ClickResult where
  effects : List ClickEffect
  error : Option JSError
deriving DecidableEq, Repr

/-- The property `offsetTop` of the element at a position. -/
def offsetTopOf (elements : List Element) (target : Nat) : Int :=
  (elements[target]?.map Element.offsetTop).getD 0

/-- The click listener of lines 122-141, for an anchor whose `href` attribute
is `href`.  An exception leaves the listener before `preventDefault`. -/
def anchorClick (quirks : Bool) (navbar : Option Int) (elements : List Element)
    (other : String → Except JSError (Option Nat)) (href : String) : ClickResult :=
  if href = "#" then { effects := [], error := none }
  else
    match querySelector quirks elements other href with
    | .error e => { effects := [], error := some e }
    | .ok none => { effects := [], error := none }
    | .ok (some target) =>
      let navHeight : Int := match navbar with
        | some offsetHeight => offsetHeight
        | none => 0
      let targetPosition := offsetTopOf elements target - navHeight - 20
      { effects :=
          [ .preventDefault,
            .scrollTo targetPosition "smooth",
            .setAttribute target "tabindex" "-1",
            .focus target ]
        error := none }

/-- The anchors matched by `a[href^="#"]`. -/
def hashAnchors (p : Page) : List Nat :=
  indicesWhere (fun href => decide (href.data.head? = some '#')) p.anchors

/-- The function `initSmoothScroll`: one click listener per matched anchor. -/
def initSmoothScroll (p : Page) : Page :=
  { p with smoothScroll := p.smoothScroll ++ hashAnchors p }

/-! ## Web vitals (lines 168-205) -/

/-- One `try` block of `reportWebVitals`: the subscription is kept when
`observe` accepts the entry type, and the exception is swallowed otherwise. -/
def subscribeVital (observable : List String) (vitals : List String) (entryType : String) :
    List String :=
  if entryType ∈ observable then vitals ++ [entryType] else vitals

/-- The function `reportWebVitals`. -/
def reportWebVitals (p : Page) : Page :=
  if p.runtime.performanceObserver then
    { p with
      vitals := ["largest-contentful-paint", "first-input", "layout-shift"].foldl
        (subscribeVital p.runtime.observableTypes) p.vitals }
  else p

/-! ## Animation styles (lines 208-240) -/

/-- The text of the injected style element. -/
def animationStyles : String :=
  "\n" ++
  "        .fade-in \x7b\n" ++
  "            opacity: 0;\n" ++
  "            transform: translateY(20px);\n" ++
  "            transition: opacity 0.6s ease, transform 0.6s ease;\n" ++
  "        \x7d\n" ++
  "        .fade-in.visible \x7b\n" ++
  "            opacity: 1;\n" ++
  "            transform: translateY(0);\n" ++
  "        \x7d\n" ++
  "        img.loaded \x7b\n" ++
  "            animation: fadeIn 0.3s ease-in;\n" ++
  "        \x7d\n" ++
  "        @keyframes fadeIn \x7b\n" ++
  "            from \x7b opacity: 0; \x7d\n" ++
  "            to \x7b opacity: 1; \x7d\n" ++
  "        \x7d\n" ++
  "        .sr-only \x7b\n" ++
  "            position: absolute;\n" ++
  "            width: 1px;\n" ++
  "            height: 1px;\n" ++
  "            padding: 0;\n" ++
  "            margin: -1px;\n" ++
  "            overflow: hidden;\n" ++
  "            clip: rect(0, 0, 0, 0);\n" ++
  "            white-space: nowrap;\n" ++
  "            border: 0;\n" ++
  "        \x7d\n" ++
  "    "

/-- The function `injectAnimationStyles`. -/
def injectAnimationStyles (p : Page) : Page :=
  { p with head := p.head ++ [HeadNode.style animationStyles] }

/-! ## The `DOMContentLoaded` handler (lines 243-256) -/

/-- Record that the handler calls the named function. -/
def called (name : String) (p : Page) : Page :=
  { p with calls := p.calls ++ [name] }

/-- The `DOMContentLoaded` handler: the page it leaves behind, and the
exception it raised, if any.  Both functions that can throw do so before they
change the page, so the page at the throw is the page at the call. -/
def domContentLoaded (p : Page) : Page × Option JSError :=
  let p := injectAnimationStyles (called "injectAnimationStyles" p)
  let p := initLazyLoading (called "initLazyLoading" p)
  let p := called "initScrollAnimations" p
  match initScrollAnimations p with
  | .error e => (p, some e)
  | .ok p =>
    let p := initSmoothScroll (called "initSmoothScroll" p)
    let p := called "preloadCriticalResources" p
    match preloadCriticalResources p.pathname p.head with
    | .error e => (p, some e)
    | .ok head =>
      let p := { p with head := head }
      let p := if p.hostname = "localhost" then reportWebVitals (called "reportWebVitals" p) else p
      ({ p with console := p.console ++ ["Smart Calendar Website Loaded - SEO Optimized"] }, none)

/-! ## Lemmas on token lists -/

theorem mem_classListAdd (cs : List String) (c x : String) :
    x ∈ classListAdd cs c ↔ x ∈ cs ∨ x = c := by
  unfold classListAdd
  split
  · constructor
    · intro h; exact Or.inl h
    · rintro (h | rfl)
      · exact h
      · assumption
  · simp

theorem mem_classListRemove (cs : List String) (c x : String) :
    x ∈ classListRemove cs c ↔ x ∈ cs ∧ x ≠ c := by
  simp [classListRemove]

theorem not_mem_classListRemove (cs : List String) (c : String) :
    c ∉ classListRemove cs c := by
  simp [classListRemove]

theorem classListRemove_of_not_mem (cs : List String) (c : String) (h : c ∉ cs) :
    classListRemove cs c = cs := by
  unfold classListRemove
  rw [List.filter_eq_self]
  intro x hx
  simp only [ne_eq, decide_not, Bool.not_eq_true', decide_eq_false_iff_not]
  rintro rfl
  exact h hx

theorem classListAdd_idem (cs : List String) (c : String) :
    classListAdd (classListAdd cs c) c = classListAdd cs c := by
  by_cases h : c ∈ cs
  · simp [classListAdd, h]
  · simp [classListAdd, h]

theorem classListRemove_idem (cs : List String) (c : String) :
    classListRemove (classListRemove cs c) c = classListRemove cs c :=
  classListRemove_of_not_mem _ _ (not_mem_classListRemove cs c)

theorem filter_ne_classListAdd (cs : List String) (c : String) :
    (classListAdd cs c).filter (fun x => decide (x ≠ c)) = cs.filter (fun x => decide (x ≠ c)) := by
  unfold classListAdd
  split
  · rfl
  · simp

theorem filter_ne_classListRemove (cs : List String) (c : String) :
    (classListRemove cs c).filter (fun x => decide (x ≠ c)) = cs.filter (fun x => decide (x ≠ c)) := by
  simp [classListRemove]

/-! ## Page visibility -/

theorem visibilityRun_append (body : List String) (evs more : List Bool) :
    visibilityRun body (evs ++ more) = visibilityRun (visibilityRun body evs) more := by
  simp [visibilityRun, List.foldl_append]

theorem visibilitychange_marker (body : List String) (hidden : Bool) :
    "page-hidden" ∈ visibilitychange body hidden ↔ hidden = true := by
  cases hidden
  · simp [visibilitychange, not_mem_classListRemove]
  · simp [visibilitychange, mem_classListAdd]

theorem visibilitychange_others (body : List String) (hidden : Bool) :
    (visibilitychange body hidden).filter (fun x => decide (x ≠ "page-hidden"))
      = body.filter (fun x => decide (x ≠ "page-hidden")) := by
  cases hidden
  · simpa [visibilitychange] using filter_ne_classListRemove body "page-hidden"
  · simpa [visibilitychange] using filter_ne_classListAdd body "page-hidden"

theorem visibilityRun_others (evs : List Bool) (body : List String) :
    (visibilityRun body evs).filter (fun x => decide (x ≠ "page-hidden"))
      = body.filter (fun x => decide (x ≠ "page-hidden")) := by
  induction evs generalizing body with
  | nil => rfl
  | cons ev evs ih =>
    have := ih (visibilitychange body ev)
    simp only [visibilityRun, List.foldl_cons] at this ⊢
    rw [this, visibilitychange_others]

theorem visibilitychange_idem (body : List String) (hidden : Bool) :
    visibilitychange (visibilitychange body hidden) hidden = visibilitychange body hidden := by
  cases hidden
  · simpa [visibilitychange] using classListRemove_idem body "page-hidden"
  · simpa [visibilitychange] using classListAdd_idem body "page-hidden"

/-- Claim C10.  For every body class list and every sequence of
`visibilitychange` events: after the last event the body has class
`page-hidden` exactly when the document is hidden; the other classes of the
body are those it started with, in the same order; and delivering the same
visibility state twice in a row gives the class list that delivering it once
gives. -/
theorem visibility_handler_marker (body : List String) (evs : List Bool) (hidden : Bool) :
    ("page-hidden" ∈ visibilityRun body (evs ++ [hidden]) ↔ hidden = true) ∧
    (visibilityRun body (evs ++ [hidden])).filter (fun x => decide (x ≠ "page-hidden"))
      = body.filter (fun x => decide (x ≠ "page-hidden")) ∧
    visibilityRun body (evs ++ [hidden, hidden]) = visibilityRun body (evs ++ [hidden]) := by
  refine ⟨?_, visibilityRun_others _ _, ?_⟩
  · rw [visibilityRun_append]
    exact visibilitychange_marker _ hidden
  · rw [visibilityRun_append, visibilityRun_append]
    exact visibilitychange_idem _ hidden

/-! ## Mobile navigation -/

theorem hamburgerClick_isOpen (s : NavState) :
    (hamburgerClick s).isOpen ↔ ¬ s.isOpen := by
  unfold NavState.isOpen hamburgerClick classListToggle
  by_cases h : "active" ∈ s.navLinks
  · simp [h, not_mem_classListRemove]
  · simp [h]

theorem hamburgerClick_mirrored (s : NavState) (h : s.mirrored) :
    (hamburgerClick s).mirrored := by
  unfold NavState.mirrored at h ⊢
  rw [hamburgerClick_isOpen, ← h]
  by_cases e : s.ariaExpanded = some "true"
  · simp [hamburgerClick, boolToAttr, e]
  · simp [hamburgerClick, boolToAttr, e]

theorem linkClick_closed (s : NavState) :
    ¬ (linkClick s).isOpen ∧ (linkClick s).ariaExpanded = some "false" := by
  simp [linkClick, NavState.isOpen, not_mem_classListRemove]

theorem linkClick_mirrored (s : NavState) : (linkClick s).mirrored := by
  simp [NavState.mirrored, linkClick, NavState.isOpen, not_mem_classListRemove]

theorem navKeydown_mirrored (key : String) (s : NavState) (h : s.mirrored) :
    (navKeydown key s).mirrored := by
  unfold navKeydown
  split
  · simp [NavState.mirrored, NavState.isOpen, not_mem_classListRemove]
  · exact h

theorem navStep_mirrored (s : NavState) (h : s.mirrored) (ev : NavEvent) :
    (navStep s ev).mirrored := by
  cases ev with
  | hamburgerClick => exact hamburgerClick_mirrored s h
  | linkClick => exact linkClick_mirrored s
  | keydown key => exact navKeydown_mirrored key s h

theorem navRun_mirrored (evs : List NavEvent) (s : NavState) (h : s.mirrored) :
    (navRun s evs).mirrored := by
  induction evs generalizing s with
  | nil => exact h
  | cons ev evs ih => exact ih _ (navStep_mirrored s h ev)

/-- Claim C6.  Start from a state in which `aria-expanded` is `"true"` exactly
when the panel has class `active`.  After every finite sequence of control
clicks, panel-link clicks and key presses the two still agree.  In the state
reached, a control click flips whether the panel is open and keeps the
agreement, a panel-link click leaves the panel closed with `aria-expanded`
equal to `"false"`, an Escape press while the panel is open does the same, and
an Escape press while the panel is closed changes nothing. -/
theorem nav_toggle_mirrored (s : NavState) (h : s.mirrored) (evs : List NavEvent) :
    (navRun s evs).mirrored ∧
    ((hamburgerClick (navRun s evs)).isOpen ↔ ¬ (navRun s evs).isOpen) ∧
    (hamburgerClick (navRun s evs)).mirrored ∧
    ¬ (linkClick (navRun s evs)).isOpen ∧
    (linkClick (navRun s evs)).ariaExpanded = some "false" ∧
    (if (navRun s evs).isOpen then
       ¬ (navKeydown "Escape" (navRun s evs)).isOpen ∧
       (navKeydown "Escape" (navRun s evs)).ariaExpanded = some "false"
     else navKeydown "Escape" (navRun s evs) = navRun s evs) := by
  have ht := navRun_mirrored evs s h
  refine ⟨ht, hamburgerClick_isOpen _, hamburgerClick_mirrored _ ht,
    (linkClick_closed _).1, (linkClick_closed _).2, ?_⟩
  split
  · rename_i ho
    have ho2 : "active" ∈ (navRun s evs).navLinks := ho
    simp [navKeydown, classListContains, ho2, NavState.isOpen, not_mem_classListRemove]
  · rename_i ho
    have ho2 : "active" ∉ (navRun s evs).navLinks := ho
    simp [navKeydown, classListContains, ho2]

/-- Witness of C6: the closed menu, then a control click, a panel-link click,
a control click and an Escape press. -/
theorem nav_toggle_mirrored_witness :
    NavState.mirrored { ariaExpanded := some "false", navLinks := ["nav-links"] } ∧
    (navRun { ariaExpanded := some "false", navLinks := ["nav-links"] }
      [.hamburgerClick, .linkClick, .hamburgerClick, .keydown "Escape"]).mirrored :=
  ⟨by decide,
   (nav_toggle_mirrored { ariaExpanded := some "false", navLinks := ["nav-links"] }
    (by decide) [.hamburgerClick, .linkClick, .hamburgerClick, .keydown "Escape"]).1⟩

/-! ## Navbar shadow on scroll -/

theorem shadowInit_throttled (b : Option String) : (shadowInit b).throttled := by
  simp [ShadowState.throttled, shadowInit]

theorem onScroll_throttled (s : ShadowState) (h : s.throttled) : (onScroll s).throttled := by
  obtain ⟨h1, h2⟩ := h
  unfold onScroll
  cases ht : s.ticking
  · have hp : s.pending = 0 := by
      have : s.pending ≠ 1 := fun e => by simp [h2.2 e] at ht
      omega
    simp [ShadowState.throttled, hp]
  · simpa [ShadowState.throttled, ht] using ⟨h1, h2.1 ht⟩

theorem onFrame_throttled (y : ℚ) (s : ShadowState) (h : s.throttled) :
    (onFrame y s).throttled ∧ (onFrame y s).pending = 0 := by
  obtain ⟨h1, h2⟩ := h
  unfold onFrame
  rcases Nat.le_one_iff_eq_zero_or_eq_one.1 h1 with hp | hp
  · have ht : s.ticking = false := by
      cases e : s.ticking
      · rfl
      · have := h2.1 e; omega
    simp [ShadowState.throttled, hp, ht]
  · simp [ShadowState.throttled, hp, frameCallback]

theorem shadowStep_throttled (s : ShadowState) (h : s.throttled) (ev : ShadowEvent) :
    (shadowStep s ev).throttled := by
  cases ev with
  | scroll => exact onScroll_throttled s h
  | frame y => exact (onFrame_throttled y s h).1

theorem shadowRun_throttled (evs : List ShadowEvent) (s : ShadowState) (h : s.throttled) :
    (shadowRun s evs).throttled := by
  induction evs generalizing s with
  | nil => exact h
  | cons ev evs ih => exact ih _ (shadowStep_throttled s h ev)

theorem onScroll_of_ticking (s : ShadowState) (h : s.ticking = true) : onScroll s = s := by
  simp [onScroll, h]

theorem scrollBurst_succ (n : Nat) (s : ShadowState) :
    scrollBurst (n + 1) s = scrollBurst n (onScroll s) := by
  simp [scrollBurst, Function.iterate_succ]

theorem scrollBurst_of_ticking (n : Nat) (s : ShadowState) (h : s.ticking = true) :
    scrollBurst n s = s := by
  induction n with
  | zero => rfl
  | succ n ih => rw [scrollBurst_succ, onScroll_of_ticking s h, ih]

theorem scrollBurst_throttled (n : Nat) (hn : 1 ≤ n) (s : ShadowState) (h : s.throttled) :
    (scrollBurst n s).pending = 1 ∧ (scrollBurst n s).ticking = true ∧
    (scrollBurst n s).scheduled = s.scheduled + (if s.pending = 0 then 1 else 0) ∧
    (scrollBurst n s).writes = s.writes ∧ (scrollBurst n s).boxShadow = s.boxShadow := by
  obtain ⟨m, rfl⟩ : ∃ m, n = m + 1 := ⟨n - 1, by omega⟩
  obtain ⟨h1, h2⟩ := h
  cases ht : s.ticking
  · have hp : s.pending = 0 := by
      have : s.pending ≠ 1 := fun e => by simp [h2.2 e] at ht
      omega
    have hs : (onScroll s).ticking = true := by simp [onScroll, ht]
    rw [scrollBurst_succ, scrollBurst_of_ticking m _ hs]
    simp [onScroll, ht, hp]
  · have hp : s.pending = 1 := h2.1 ht
    rw [scrollBurst_of_ticking _ s ht]
    simp [ht, hp]

/-- Claim C5.  In every state `s` reached from the installation of the listener
by an interleaving of scroll events and animation frames, at most one frame
callback is pending, and `ticking` is set exactly when one is.  A burst of
`n ≥ 1` scroll events from `s` leaves exactly one callback pending; it calls
`requestAnimationFrame` exactly once when nothing was pending in `s` (as at the
start and after every frame) and not at all otherwise, and writes no style.
The frame that follows makes exactly one style write, of
`0 4px 6px -1px rgb(0 0 0 / 0.1)` when the offset read at the frame is greater
than 50 and of `none` otherwise, resets `ticking`, leaves nothing pending, and
the next scroll event schedules a callback again. -/
theorem scroll_shadow_throttle (boxShadow : Option String) (evs : List ShadowEvent)
    (n : Nat) (hn : 1 ≤ n) (y : ℚ) :
    (shadowRun (shadowInit boxShadow) evs).pending ≤ 1 ∧
    ((shadowRun (shadowInit boxShadow) evs).ticking = true ↔
      (shadowRun (shadowInit boxShadow) evs).pending = 1) ∧
    (scrollBurst n (shadowRun (shadowInit boxShadow) evs)).pending = 1 ∧
    (scrollBurst n (shadowRun (shadowInit boxShadow) evs)).scheduled =
      (shadowRun (shadowInit boxShadow) evs).scheduled +
        (if (shadowRun (shadowInit boxShadow) evs).pending = 0 then 1 else 0) ∧
    (scrollBurst n (shadowRun (shadowInit boxShadow) evs)).writes =
      (shadowRun (shadowInit boxShadow) evs).writes ∧
    (onFrame y (scrollBurst n (shadowRun (shadowInit boxShadow) evs))).writes =
      (shadowRun (shadowInit boxShadow) evs).writes + 1 ∧
    (onFrame y (scrollBurst n (shadowRun (shadowInit boxShadow) evs))).boxShadow =
      some (if y > 50 then "0 4px 6px -1px rgb(0 0 0 / 0.1)" else "none") ∧
    (onFrame y (scrollBurst n (shadowRun (shadowInit boxShadow) evs))).ticking = false ∧
    (onFrame y (scrollBurst n (shadowRun (shadowInit boxShadow) evs))).pending = 0 ∧
    (onScroll (onFrame y (scrollBurst n (shadowRun (shadowInit boxShadow) evs)))).pending = 1 ∧
    (onScroll (onFrame y (scrollBurst n (shadowRun (shadowInit boxShadow) evs)))).scheduled =
      (onFrame y (scrollBurst n (shadowRun (shadowInit boxShadow) evs))).scheduled + 1 := by
  have hs := shadowRun_throttled evs _ (shadowInit_throttled boxShadow)
  generalize shadowRun (shadowInit boxShadow) evs = s at hs ⊢
  obtain ⟨hb1, hb2, hb3, hb4, hb5⟩ := scrollBurst_throttled n hn s hs
  generalize scrollBurst n s = b at hb1 hb2 hb3 hb4 hb5 ⊢
  refine ⟨hs.1, hs.2, hb1, hb3, hb4, ?_, ?_, ?_, ?_, ?_, ?_⟩ <;>
    simp [onFrame, onScroll, frameCallback, hb1, hb4, shadowOn]

/-- Witness of C5: scroll, frame, then a burst of three scroll events and a
frame at offset 120. -/
theorem scroll_shadow_throttle_witness :
    1 ≤ 3 ∧
    (onFrame 120 (scrollBurst 3 (shadowRun (shadowInit none) [.scroll, .frame 10]))).boxShadow =
      some (if (120 : ℚ) > 50 then "0 4px 6px -1px rgb(0 0 0 / 0.1)" else "none") :=
  ⟨by decide,
   (scroll_shadow_throttle none [.scroll, .frame 10] 3 (by decide) 120).2.2.2.2.2.2.1⟩

/-! ## Prefetching -/

theorem jsSplit_ne_nil (sep : Char) (cs : List Char) : jsSplit sep cs ≠ [] := by
  cases cs with
  | nil => simp [jsSplit]
  | cons c cs =>
    unfold jsSplit
    split
    · simp
    · split <;> simp

theorem jsPop_jsSplit_of_not_mem (sep : Char) (cs : List Char) (h : sep ∉ cs) :
    jsSplit sep cs = [cs] := by
  induction cs with
  | nil => rfl
  | cons c cs ih =>
    have hc : c ≠ sep := fun e => h (by simp [e])
    have hcs : sep ∉ cs := fun e => h (by simp [e])
    simp [jsSplit, hc, ih hcs]

theorem jsSplit_cons (sep c : Char) (cs : List Char) :
    jsSplit sep (c :: cs) =
      if c = sep then [] :: jsSplit sep cs
      else
        match jsSplit sep cs with
        | [] => [[c]]
        | seg :: segs => (c :: seg) :: segs := by
  rw [jsSplit]

theorem jsSplit_append_sep (sep : Char) (pre rest : List Char) :
    ∃ segs, segs ≠ [] ∧ jsSplit sep (pre ++ sep :: rest) = segs ++ jsSplit sep rest := by
  induction pre with
  | nil => exact ⟨[[]], by simp, by simp [jsSplit]⟩
  | cons c pre ih =>
    obtain ⟨segs, hne, hsegs⟩ := ih
    by_cases hc : c = sep
    · exact ⟨[] :: segs, by simp, by simp [jsSplit, hc, ← hsegs]⟩
    · cases segs with
      | nil => exact absurd rfl hne
      | cons a as =>
        refine ⟨(c :: a) :: as, by simp, ?_⟩
        rw [List.cons_append, jsSplit_cons, if_neg hc, hsegs]
        rfl

/-- The value of `split('/').pop()` is the text after the last separator. -/
theorem jsPop_jsSplit (sep : Char) (pre seg : List Char) (h : sep ∉ seg) :
    jsPop (jsSplit sep (pre ++ sep :: seg)) = some seg := by
  obtain ⟨segs, _, hsegs⟩ := jsSplit_append_sep sep pre seg
  rw [hsegs, jsPop_jsSplit_of_not_mem sep seg h]
  simp [jsPop]

theorem currentPage_of_segment (pre seg : List Char) (h : '/' ∉ seg) :
    currentPage (String.mk (pre ++ '/' :: seg)) =
      if seg = [] then "index.html" else String.mk seg := by
  unfold currentPage
  simp only [jsPop_jsSplit '/' pre seg h]

/-- A pathname without any separator is its own last segment. -/
theorem currentPage_of_no_sep (seg : List Char) (h : '/' ∉ seg) :
    currentPage (String.mk seg) = if seg = [] then "index.html" else String.mk seg := by
  unfold currentPage
  simp only [jsPop_jsSplit_of_not_mem '/' seg h, jsPop, List.getLast?_singleton]

theorem foldl_appendPrefetch (pages : List String) (head : List HeadNode) :
    pages.foldl appendPrefetch head = head ++ prefetchLinks pages := by
  induction pages generalizing head with
  | nil => simp [prefetchLinks]
  | cons p ps ih => simp [List.foldl_cons, ih, appendPrefetch, prefetchLinks]

theorem preload_of_listed (pathname : String) (head : List HeadNode) (pages : List String)
    (h : pageFlow.lookup (currentPage pathname) = some pages) :
    preloadCriticalResources pathname head = .ok (head ++ prefetchLinks pages) := by
  simp [preloadCriticalResources, pageFlowGet, h, JSValue.or, JSValue.truthy,
    nextPagesForEach, foldl_appendPrefetch]

/-- For a page that is neither a key of the routing table nor a property name
of `Object.prototype`, nothing is appended and nothing is raised. -/
theorem preload_of_unlisted (pathname : String) (head : List HeadNode)
    (h : pageFlow.lookup (currentPage pathname) = none)
    (hm : currentPage pathname ∉ objectPrototypeMethods)
    (hp : currentPage pathname ≠ "__proto__") :
    preloadCriticalResources pathname head = .ok head := by
  simp [preloadCriticalResources, pageFlowGet, h, hm, hp, JSValue.or, JSValue.truthy,
    nextPagesForEach]

/-- Claim C1.  Let `seg` be the text after the last `/` of the pathname: the
pathname is `pre ++ "/" ++ seg`, or it has no `/` at all and is `seg` itself.
The current page is `seg`, or `index.html` when `seg` is empty.  When the
current page is one of the five listed pages, `preloadCriticalResources`
appends to the head exactly the prefetch links of that page's successors, in
table order: `index.html` gives `solution.html` then `problem.html`,
`problem.html` gives `solution.html`, `solution.html` gives `market.html`,
`market.html` gives the single link `roadmap.html`, `roadmap.html` gives
`contact.html`; and a pathname ending in `/` gives the links of `index.html`. -/
theorem preload_routing_table (pathname : String) (pre seg : List Char)
    (hpath : pathname = String.mk (pre ++ '/' :: seg) ∨ pathname = String.mk seg)
    (hseg : '/' ∉ seg) (head : List HeadNode) :
    currentPage pathname = (if seg = [] then "index.html" else String.mk seg) ∧
    (currentPage pathname = "index.html" →
      preloadCriticalResources pathname head =
        .ok (head ++ [.link "prefetch" "solution.html", .link "prefetch" "problem.html"])) ∧
    (currentPage pathname = "problem.html" →
      preloadCriticalResources pathname head =
        .ok (head ++ [.link "prefetch" "solution.html"])) ∧
    (currentPage pathname = "solution.html" →
      preloadCriticalResources pathname head =
        .ok (head ++ [.link "prefetch" "market.html"])) ∧
    (currentPage pathname = "market.html" →
      preloadCriticalResources pathname head =
        .ok (head ++ [.link "prefetch" "roadmap.html"])) ∧
    (currentPage pathname = "roadmap.html" →
      preloadCriticalResources pathname head =
        .ok (head ++ [.link "prefetch" "contact.html"])) ∧
    (seg = [] →
      preloadCriticalResources pathname head =
        .ok (head ++ [.link "prefetch" "solution.html", .link "prefetch" "problem.html"])) := by
  have hcur : currentPage pathname = (if seg = [] then "index.html" else String.mk seg) := by
    rcases hpath with hpath | hpath
    · rw [hpath]; exact currentPage_of_segment pre seg hseg
    · rw [hpath]; exact currentPage_of_no_sep seg hseg
  refine ⟨hcur, ?_, ?_, ?_, ?_, ?_, ?_⟩
  · intro h
    exact preload_of_listed pathname head ["solution.html", "problem.html"] (by rw [h]; rfl)
  · intro h
    exact preload_of_listed pathname head ["solution.html"] (by rw [h]; rfl)
  · intro h
    exact preload_of_listed pathname head ["market.html"] (by rw [h]; rfl)
  · intro h
    exact preload_of_listed pathname head ["roadmap.html"] (by rw [h]; rfl)
  · intro h
    exact preload_of_listed pathname head ["contact.html"] (by rw [h]; rfl)
  · intro h
    have hc : currentPage pathname = "index.html" := by rw [hcur, if_pos h]
    exact preload_of_listed pathname head ["solution.html", "problem.html"] (by rw [hc]; rfl)

/-- Witness of C1: the pathname `/site/market.html` on an empty head. -/
theorem preload_routing_table_witness :
    ("/site/market.html" = String.mk ("/site".data ++ '/' :: "market.html".data) ∨
      "/site/market.html" = String.mk "market.html".data) ∧
    '/' ∉ "market.html".data ∧
    currentPage "/site/market.html" = "market.html" ∧
    preloadCriticalResources "/site/market.html" [] = .ok [.link "prefetch" "roadmap.html"] :=
  have h := preload_routing_table "/site/market.html" "/site".data "market.html".data
    (Or.inl (by decide)) (by decide) []
  ⟨Or.inl (by decide), by decide, by decide, h.2.2.2.2.1 (by decide)⟩

/-- Claim C2, evaluated where it fails.  The pages `constructor`, `toString` and
`__proto__` are not keys of the routing table, yet for each of them
`preloadCriticalResources` raises a `TypeError`: the lookup gives an inherited
value, the default `[]` is not taken, and the value has no `forEach`. -/
theorem preload_inherited_name_throws :
    currentPage "/constructor" = "constructor" ∧
    pageFlow.lookup "constructor" = none ∧
    preloadCriticalResources "/constructor" [] =
      .error (.typeError "nextPages.forEach is not a function") ∧
    preloadCriticalResources "/toString" [] =
      .error (.typeError "nextPages.forEach is not a function") ∧
    preloadCriticalResources "/docs/__proto__" [] =
      .error (.typeError "nextPages.forEach is not a function") := by
  refine ⟨by decide, by decide, rfl, rfl, rfl⟩

/-! ## Lazy loading -/

theorem updateAt_getElem? {α : Type} (f : α → α) (j : Nat) (xs : List α) (i : Nat) :
    (updateAt f j xs)[i]? = if i = j then xs[i]?.map f else xs[i]? := by
  induction xs generalizing i j with
  | nil => simp [updateAt]
  | cons x xs ih =>
    cases j with
    | zero => cases i <;> simp [updateAt]
    | succ j =>
      cases i with
      | zero => simp [updateAt]
      | succ i => simp [updateAt, ih]

theorem mem_indicesWhere {α : Type} (test : α → Bool) (xs : List α) (i : Nat) :
    i ∈ indicesWhere test xs ↔ ∃ x, xs[i]? = some x ∧ test x = true := by
  unfold indicesWhere
  simp only [List.mem_filter, List.mem_range]
  constructor
  · rintro ⟨hlt, h⟩
    refine ⟨xs[i], by simp [hlt], ?_⟩
    simpa [List.getElem?_eq_getElem hlt] using h
  · rintro ⟨x, hx, ht⟩
    have hlt : i < xs.length := by
      by_contra hge
      rw [List.getElem?_eq_none (by omega)] at hx
      exact absurd hx (by simp)
    exact ⟨hlt, by simp [hx, ht]⟩

theorem foldl_updateAt_getElem? {α : Type} (f : α → α) (hf : ∀ x, f (f x) = f x)
    (js : List Nat) (xs : List α) (i : Nat) :
    (js.foldl (fun acc j => updateAt f j acc) xs)[i]? =
      if i ∈ js then xs[i]?.map f else xs[i]? := by
  induction js generalizing xs with
  | nil => simp
  | cons j js ih =>
    rw [List.foldl_cons, ih, updateAt_getElem?]
    by_cases hij : i = j
    · subst hij
      by_cases hm : i ∈ js
      · simp [hm, hf, Option.map_map, Function.comp_def]
      · simp [hm]
    · by_cases hm : i ∈ js
      · simp [hm, hij]
      · simp [hm, hij]

theorem loadImage_of_dataSrc (img : Img) (h : img.hasDataSrc = true) :
    loadImage img =
      { isLazy := img.isLazy, dataSrc := none, src := img.dataSrc,
        classList := classListAdd img.classList "loaded" } := by
  simp only [loadImage, h, if_true]

theorem loadImage_of_no_dataSrc (img : Img) (h : img.hasDataSrc = false) :
    loadImage img = { img with classList := classListAdd img.classList "loaded" } := by
  simp only [loadImage, h, Bool.false_eq_true, if_false]

theorem loadImage_idem (img : Img) : loadImage (loadImage img) = loadImage img := by
  cases h : img.hasDataSrc
  · rw [loadImage_of_no_dataSrc img h]
    have h2 : ({ img with classList := classListAdd img.classList "loaded" } : Img).hasDataSrc
        = false := h
    rw [loadImage_of_no_dataSrc _ h2]
    simp [classListAdd_idem]
  · rw [loadImage_of_dataSrc img h]
    have h2 : (⟨img.isLazy, none, img.dataSrc, classListAdd img.classList "loaded"⟩ :
        Img).hasDataSrc = false := rfl
    rw [loadImage_of_no_dataSrc _ h2]
    simp [classListAdd_idem]

theorem loadImmediately_idem (img : Img) :
    loadImmediately (loadImmediately img) = loadImmediately img := by
  cases h : img.hasDataSrc
  · simp [loadImmediately, h]
  · have h2 : ({ img with src := img.dataSrc } : Img).hasDataSrc = true := by
      simpa [Img.hasDataSrc] using h
    simp [loadImmediately, h, h2]

theorem imageCallback_cons (p : Page) (e : Entry) (es : List Entry) :
    imageCallback p (e :: es) = imageCallback (imageEntry p e) es := rfl

theorem imageEntry_images (p : Page) (e : Entry) (i : Nat) :
    (imageEntry p e).images[i]? =
      if (e.isIntersecting && e.target == i) = true then p.images[i]?.map loadImage
      else p.images[i]? := by
  unfold imageEntry
  cases hi : e.isIntersecting
  · simp
  · simp only [if_true, updateAt_getElem?, Bool.true_and, beq_iff_eq]
    by_cases h : i = e.target
    · simp [h]
    · have h2 : ¬ e.target = i := fun e2 => h e2.symm
      simp [h, h2]

theorem imageCallback_images (es : List Entry) (p : Page) (i : Nat) :
    (imageCallback p es).images[i]? =
      if intersects i es = true then p.images[i]?.map loadImage else p.images[i]? := by
  induction es generalizing p with
  | nil => simp [imageCallback, intersects]
  | cons e es ih =>
    rw [imageCallback_cons, ih, imageEntry_images]
    by_cases he : (e.isIntersecting && e.target == i) = true
    · by_cases hes : intersects i es = true
      · have : intersects i (e :: es) = true := by simp [intersects, he]
        simp [he, hes, this, Option.map_map, Function.comp_def, loadImage_idem]
      · have : intersects i (e :: es) = true := by simp [intersects, he]
        simp [he, hes, this]
    · have hcons : intersects i (e :: es) = intersects i es := by
        simp only [intersects, List.any_cons]
        simp only [Bool.not_eq_true] at he
        rw [he, Bool.false_or]
      simp [he, hcons]

theorem imageCallbacks_eq_flatten (cbs : List (List Entry)) (p : Page) :
    imageCallbacks p cbs = imageCallback p cbs.flatten := by
  induction cbs generalizing p with
  | nil => rfl
  | cons cb cbs ih =>
    simp only [imageCallbacks, List.foldl_cons, List.flatten_cons] at ih ⊢
    rw [ih]
    simp [imageCallback, List.foldl_append]

theorem imageEntry_observed (p : Page) (e : Entry) (i : Nat) :
    i ∈ (imageEntry p e).imageObserved ↔
      i ∈ p.imageObserved ∧ ¬ (e.isIntersecting && e.target == i) = true := by
  unfold imageEntry
  cases hi : e.isIntersecting
  · simp
  · simp only [if_true, unobserve, List.mem_filter, Bool.true_and, beq_iff_eq]
    constructor
    · rintro ⟨h1, h2⟩
      refine ⟨h1, fun h3 => ?_⟩
      simp [h3] at h2
    · rintro ⟨h1, h2⟩
      refine ⟨h1, ?_⟩
      have : i ≠ e.target := fun h3 => h2 h3.symm
      simp [this]

theorem imageCallback_observed (es : List Entry) (p : Page) (i : Nat) :
    i ∈ (imageCallback p es).imageObserved ↔
      i ∈ p.imageObserved ∧ intersects i es = false := by
  induction es generalizing p with
  | nil => simp [imageCallback, intersects]
  | cons e es ih =>
    rw [imageCallback_cons, ih, imageEntry_observed]
    simp only [intersects, List.any_cons, Bool.or_eq_false_iff, Bool.not_eq_true]
    tauto

theorem mem_foldl_observe (js acc : List Nat) (i : Nat) :
    i ∈ js.foldl observe acc ↔ i ∈ acc ∨ i ∈ js := by
  induction js generalizing acc with
  | nil => simp
  | cons j js ih =>
    rw [List.foldl_cons, ih]
    have hobs : i ∈ observe acc j ↔ i ∈ acc ∨ i = j := by
      unfold observe
      split
      · constructor
        · exact Or.inl
        · rintro (h | rfl)
          · exact h
          · assumption
      · simp
    rw [hobs]
    simp only [List.mem_cons]
    tauto

/-- Claim C3, as amended.  Let `img` be a lazy image of the page whose
`data-src` is present and not empty.  With native lazy loading,
`initLazyLoading` leaves every image and the observer as they were.  Without it
but with `IntersectionObserver`, the image is observed, and once some callback
has delivered an intersecting entry for it, its `src` is the former `data-src`,
it carries no `data-src`, it has the class `loaded` and it is no longer observed.
With neither, `initLazyLoading` itself sets `src` to the `data-src` value. -/
theorem lazy_loading_tiers (p : Page) (cbs : List (List Entry)) (i : Nat) (img : Img)
    (hi : p.images[i]? = some img) (hlazy : img.isLazy = true)
    (hsrc : img.hasDataSrc = true) :
    if p.runtime.nativeLazyLoading = true then
      (initLazyLoading p).images = p.images ∧
      (initLazyLoading p).imageObserved = p.imageObserved
    else if p.runtime.intersectionObserver = true then
      (initLazyLoading p).images = p.images ∧
      i ∈ (initLazyLoading p).imageObserved ∧
      (intersects i cbs.flatten = true →
        (imageCallbacks (initLazyLoading p) cbs).images[i]? =
          some ⟨img.isLazy, none, img.dataSrc, classListAdd img.classList "loaded"⟩ ∧
        i ∉ (imageCallbacks (initLazyLoading p) cbs).imageObserved)
    else
      ((initLazyLoading p).images[i]?).map Img.src = some img.dataSrc := by
  have hmem : i ∈ lazyImages p := (mem_indicesWhere _ _ _).2 ⟨img, hi, hlazy⟩
  by_cases hn : p.runtime.nativeLazyLoading = true
  · simp [hn, initLazyLoading]
  · by_cases ho : p.runtime.intersectionObserver = true
    · rw [if_neg hn, if_pos ho]
      have himgs : (initLazyLoading p).images = p.images := by
        simp [initLazyLoading, hn, ho]
      refine ⟨himgs, ?_, ?_⟩
      · simp only [initLazyLoading, hn, ho, if_true, if_false, Bool.false_eq_true]
        exact (mem_foldl_observe _ _ _).2 (Or.inr hmem)
      · intro hint
        rw [imageCallbacks_eq_flatten]
        constructor
        · rw [imageCallback_images, if_pos hint, himgs, hi, Option.map_some',
            loadImage_of_dataSrc img hsrc]
        · intro hobs
          have := ((imageCallback_observed _ _ _).1 hobs).2
          rw [hint] at this
          exact absurd this (by simp)
    · rw [if_neg hn, if_neg ho]
      simp only [initLazyLoading, hn, ho, if_false, Bool.false_eq_true]
      rw [foldl_updateAt_getElem? _ loadImmediately_idem, if_pos hmem, hi, Option.map_some']
      simp [loadImmediately, hsrc]

/-- Witness of C3 as amended: one lazy image with `data-src="photo.jpg"`, no
native lazy loading, an `IntersectionObserver`, and two callbacks of which the
second reports the image as intersecting. -/
theorem lazy_loading_tiers_witness :
    (imageCallbacks
      (initLazyLoading
        { Page.blank ⟨false, true, false, []⟩ "/" "example.org" with
          images := [⟨true, some "photo.jpg", none, []⟩] })
      [[⟨0, false⟩], [⟨0, true⟩]]).images[0]? =
      some ⟨true, none, some "photo.jpg", ["loaded"]⟩ :=
  ((lazy_loading_tiers
    { Page.blank ⟨false, true, false, []⟩ "/" "example.org" with
      images := [⟨true, some "photo.jpg", none, []⟩] }
    [[⟨0, false⟩], [⟨0, true⟩]] 0 ⟨true, some "photo.jpg", none, []⟩
    rfl rfl rfl).2.2 rfl).1

/-- Claim C3 fails as stated.  With native lazy loading, and also with neither
capability, a lazy image that had `data-src="photo.jpg"` still carries it after
processing, and with native lazy loading its `src` is still unset; with an
`IntersectionObserver`, a lazy image whose `data-src` is empty still carries
the attribute after it has intersected. -/
theorem lazy_loading_keeps_data_src :
    (initLazyLoading
      { Page.blank ⟨true, true, true, []⟩ "/" "example.org" with
        images := [⟨true, some "photo.jpg", none, []⟩] }).images =
      [⟨true, some "photo.jpg", none, []⟩] ∧
    (initLazyLoading
      { Page.blank ⟨false, false, false, []⟩ "/" "example.org" with
        images := [⟨true, some "photo.jpg", none, []⟩] }).images =
      [⟨true, some "photo.jpg", some "photo.jpg", []⟩] ∧
    (imageCallbacks
      (initLazyLoading
        { Page.blank ⟨false, true, false, []⟩ "/" "example.org" with
          images := [⟨true, some "", none, []⟩] })
      [[⟨0, true⟩]]).images =
      [⟨true, some "", none, ["loaded"]⟩] := by
  refine ⟨by decide, by decide, by decide⟩

/-! ## Scroll animations -/

theorem fadeCallback_cons (p : Page) (e : Entry) (es : List Entry) :
    fadeCallback p (e :: es) = fadeCallback (fadeEntry p e) es := rfl

theorem fadeCallbacks_cons (p : Page) (cb : List Entry) (cbs : List (List Entry)) :
    fadeCallbacks p (cb :: cbs) = fadeCallbacks (fadeCallback p cb) cbs := rfl

theorem fadeCallback_append (p : Page) (es fs : List Entry) :
    fadeCallback p (es ++ fs) = fadeCallback (fadeCallback p es) fs := by
  simp [fadeCallback, List.foldl_append]

theorem fadeCallbacks_append (p : Page) (cbs ds : List (List Entry)) :
    fadeCallbacks p (cbs ++ ds) = fadeCallbacks (fadeCallbacks p cbs) ds := by
  simp [fadeCallbacks, List.foldl_append]

theorem fadeCallbacks_eq_flatten (cbs : List (List Entry)) (p : Page) :
    fadeCallbacks p cbs = fadeCallback p cbs.flatten := by
  induction cbs generalizing p with
  | nil => rfl
  | cons cb cbs ih => rw [fadeCallbacks_cons, ih, List.flatten_cons, fadeCallback_append]

theorem intersects_cons (e : Nat) (en : Entry) (es : List Entry) :
    intersects e (en :: es) = ((en.isIntersecting && en.target == e) || intersects e es) := rfl

theorem intersections_cons (e : Nat) (en : Entry) (es : List Entry) :
    intersections e (en :: es) =
      intersections e es + (if (en.isIntersecting && en.target == e) = true then 1 else 0) := by
  simp [intersections, List.countP_cons]

theorem intersects_eq_false_iff (e : Nat) (es : List Entry) :
    intersects e es = false ↔ ∀ en ∈ es, ¬ (en.isIntersecting = true ∧ en.target = e) := by
  simp [intersects]

theorem intersections_eq_zero (e : Nat) (es : List Entry) (h : intersects e es = false) :
    intersections e es = 0 := by
  induction es with
  | nil => rfl
  | cons en es ih =>
    rw [intersects_cons, Bool.or_eq_false_iff] at h
    rw [intersections_cons, ih h.2, h.1]
    rfl

theorem intersects_of_intersections_pos (e : Nat) (es : List Entry)
    (h : 0 < intersections e es) : ⟨e, true⟩ ∈ es := by
  induction es with
  | nil => simp [intersections] at h
  | cons en es ih =>
    rw [intersections_cons] at h
    by_cases hen : (en.isIntersecting && en.target == e) = true
    · simp only [Bool.and_eq_true, beq_iff_eq] at hen
      have : en = ⟨e, true⟩ := by
        cases en
        simp_all
      rw [this]
      exact List.mem_cons_self _ _
    · rw [if_neg hen, Nat.add_zero] at h
      exact List.mem_cons_of_mem _ (ih h)

theorem intersects_of_mem (e : Nat) (es : List Entry) (h : ⟨e, true⟩ ∈ es) :
    intersects e es = true := by
  simp only [intersects, List.any_eq_true]
  exact ⟨⟨e, true⟩, h, by simp⟩

theorem fadeEntry_observed (p : Page) (en : Entry) (e : Nat) :
    e ∈ (fadeEntry p en).fadeObserved ↔
      e ∈ p.fadeObserved ∧ (en.isIntersecting && en.target == e) = false := by
  unfold fadeEntry
  cases hi : en.isIntersecting
  · simp
  · simp only [if_true, unobserve, List.mem_filter, Bool.true_and, beq_eq_false_iff_ne]
    constructor
    · rintro ⟨h1, h2⟩
      refine ⟨h1, fun h3 => ?_⟩
      simp [h3] at h2
    · rintro ⟨h1, h2⟩
      refine ⟨h1, ?_⟩
      have : e ≠ en.target := fun h3 => h2 h3.symm
      simp [this]

theorem fadeEntry_count (p : Page) (en : Entry) (e : Nat) :
    (fadeEntry p en).visibleAdds.count e =
      p.visibleAdds.count e + (if (en.isIntersecting && en.target == e) = true then 1 else 0) := by
  unfold fadeEntry
  cases hi : en.isIntersecting
  · simp
  · by_cases h : en.target = e
    · simp [h]
    · simp [h, List.count_singleton]

theorem addClass_idem (c : String) (el : Element) :
    Element.addClass c (Element.addClass c el) = Element.addClass c el := by
  simp [Element.addClass, classListAdd_idem]

theorem fadeEntry_elements (p : Page) (en : Entry) (e : Nat) :
    (fadeEntry p en).elements[e]? =
      if (en.isIntersecting && en.target == e) = true then
        p.elements[e]?.map (Element.addClass "visible")
      else p.elements[e]? := by
  unfold fadeEntry
  cases hi : en.isIntersecting
  · simp
  · simp only [if_true, addClass, updateAt_getElem?, Bool.true_and, beq_iff_eq]
    by_cases h : e = en.target
    · simp [h]
    · have h2 : ¬ en.target = e := fun h3 => h h3.symm
      simp [h, h2]

/-- After a callback the observer holds the targets it held that no entry of
the batch reported as intersecting. -/
theorem fadeCallback_observed (es : List Entry) (p : Page) (e : Nat) :
    e ∈ (fadeCallback p es).fadeObserved ↔
      e ∈ p.fadeObserved ∧ intersects e es = false := by
  induction es generalizing p with
  | nil => simp [fadeCallback, intersects]
  | cons en es ih =>
    rw [fadeCallback_cons, ih, fadeEntry_observed, intersects_cons, Bool.or_eq_false_iff]
    tauto

/-- A callback calls `classList.add('visible')` on a target once for every
entry of the batch that reports it as intersecting. -/
theorem fadeCallback_count (es : List Entry) (p : Page) (e : Nat) :
    (fadeCallback p es).visibleAdds.count e = p.visibleAdds.count e + intersections e es := by
  induction es generalizing p with
  | nil => simp [fadeCallback, intersections]
  | cons en es ih =>
    rw [fadeCallback_cons, ih, fadeEntry_count, intersections_cons]
    omega

/-- Whatever the batch holds, a callback leaves on an element the classes that
no addition or a single addition of `visible` gives. -/
theorem fadeCallback_elements (es : List Entry) (p : Page) (e : Nat) :
    (fadeCallback p es).elements[e]? =
      if intersects e es = true then p.elements[e]?.map (Element.addClass "visible")
      else p.elements[e]? := by
  induction es generalizing p with
  | nil => simp [fadeCallback, intersects]
  | cons en es ih =>
    rw [fadeCallback_cons, ih, fadeEntry_elements, intersects_cons]
    by_cases hen : (en.isIntersecting && en.target == e) = true
    · by_cases hes : intersects e es = true
      · simp [hen, hes, Option.map_map, Function.comp_def, addClass_idem]
      · simp [hen, hes]
    · simp only [Bool.not_eq_true] at hen
      simp [hen]

theorem delivered_cons (p : Page) (cb : List Entry) (cbs : List (List Entry)) :
    delivered p (cb :: cbs) = (deliveredEntries p cb && delivered (fadeCallback p cb) cbs) := rfl

theorem delivered_append (cbs ds : List (List Entry)) (p : Page) :
    delivered p (cbs ++ ds) = (delivered p cbs && delivered (fadeCallbacks p cbs) ds) := by
  induction cbs generalizing p with
  | nil => simp [delivered, fadeCallbacks]
  | cons cb cbs ih =>
    rw [List.cons_append, delivered_cons, delivered_cons, ih, fadeCallbacks_cons, Bool.and_assoc]

theorem deliveredEntries_observed (p : Page) (es : List Entry)
    (hd : deliveredEntries p es = true) (en : Entry) (hen : en ∈ es) :
    en.target ∈ p.fadeObserved := by
  simp only [deliveredEntries, List.all_eq_true, decide_eq_true_eq] at hd
  exact hd en hen

/-- Once an element is out of the observer, no later callback has an entry for
it. -/
theorem delivered_unobserved (cbs : List (List Entry)) (p : Page) (e : Nat)
    (hd : delivered p cbs = true) (he : e ∉ p.fadeObserved) :
    ∀ cb ∈ cbs, ∀ en ∈ cb, en.target ≠ e := by
  induction cbs generalizing p with
  | nil => simp
  | cons cb cbs ih =>
    rw [delivered_cons, Bool.and_eq_true] at hd
    have he2 : e ∉ (fadeCallback p cb).fadeObserved := fun h =>
      he ((fadeCallback_observed cb p e).1 h).1
    intro later hl en hen
    rcases List.mem_cons.1 hl with rfl | hl
    · intro h
      exact he (h ▸ deliveredEntries_observed p later hd.1 en hen)
    · exact ih _ hd.2 he2 later hl en hen

theorem observeAnimated_observed (p : Page) (e : Nat) :
    e ∈ (observeAnimated p).fadeObserved ↔ e ∈ animatedElements p := by
  simp [observeAnimated, mem_foldl_observe]

theorem observeAnimated_visibleAdds (p : Page) :
    (observeAnimated p).visibleAdds = p.visibleAdds := rfl

/-- Claim C4, as amended.  Let the runtime have `IntersectionObserver`, let `e`
be matched by the selector list, and let every callback of a sequence carry
entries only for elements observed when that callback starts.  Then
`initScrollAnimations` returns with `e` observed, and whatever the callbacks
hold the classes of `e` end as no addition or a single addition of `visible`
leaves them.  A callback in which `classList.add('visible')` is called on `e`
has an entry for `e` with `isIntersecting` true; no callback before it has
called it; it calls it once for every such entry of its batch; it leaves the
classes of `e` as a single addition gives them and leaves `e` unobserved; no
callback after it has an entry for `e`; and the classes of `e` and its count of
additions stay as that callback left them. -/
theorem fade_in_one_callback (p : Page) (hobs : p.runtime.intersectionObserver = true)
    (cbs : List (List Entry)) (hd : delivered (observeAnimated p) cbs = true)
    (e : Nat) (he : e ∈ animatedElements p) :
    initScrollAnimations p = .ok (observeAnimated p) ∧
    e ∈ (observeAnimated p).fadeObserved ∧
    (fadeCallbacks (observeAnimated p) cbs).elements[e]? =
      (if intersects e cbs.flatten = true then
        (observeAnimated p).elements[e]?.map (Element.addClass "visible")
      else (observeAnimated p).elements[e]?) ∧
    ∀ pre cb post, cbs = pre ++ cb :: post →
      (fadeCallbacks (observeAnimated p) pre).visibleAdds.count e <
        (fadeCallback (fadeCallbacks (observeAnimated p) pre) cb).visibleAdds.count e →
      ⟨e, true⟩ ∈ cb ∧
      (fadeCallbacks (observeAnimated p) pre).visibleAdds.count e =
        (observeAnimated p).visibleAdds.count e ∧
      (fadeCallback (fadeCallbacks (observeAnimated p) pre) cb).visibleAdds.count e =
        (observeAnimated p).visibleAdds.count e + intersections e cb ∧
      (fadeCallback (fadeCallbacks (observeAnimated p) pre) cb).elements[e]? =
        (observeAnimated p).elements[e]?.map (Element.addClass "visible") ∧
      e ∉ (fadeCallback (fadeCallbacks (observeAnimated p) pre) cb).fadeObserved ∧
      (∀ later ∈ post, ∀ en ∈ later, en.target ≠ e) ∧
      (fadeCallbacks (observeAnimated p) cbs).elements[e]? =
        (fadeCallback (fadeCallbacks (observeAnimated p) pre) cb).elements[e]? ∧
      (fadeCallbacks (observeAnimated p) cbs).visibleAdds.count e =
        (fadeCallback (fadeCallbacks (observeAnimated p) pre) cb).visibleAdds.count e := by
  refine ⟨by simp [initScrollAnimations, hobs], (observeAnimated_observed p e).2 he, ?_, ?_⟩
  · rw [fadeCallbacks_eq_flatten, fadeCallback_elements]
  · intro pre cb post hcbs hlt
    subst hcbs
    rw [delivered_append, Bool.and_eq_true, delivered_cons, Bool.and_eq_true] at hd
    obtain ⟨_, hcb, hpost⟩ := hd
    -- the callback has an intersecting entry for the element
    rw [fadeCallback_count] at hlt
    have hmem : ⟨e, true⟩ ∈ cb := intersects_of_intersections_pos e cb (by omega)
    have hint : intersects e cb = true := intersects_of_mem e cb hmem
    -- so the element was observed when it started, and nothing before had touched it
    have hobserved : e ∈ (fadeCallbacks (observeAnimated p) pre).fadeObserved :=
      deliveredEntries_observed _ cb hcb ⟨e, true⟩ hmem
    rw [fadeCallbacks_eq_flatten] at hobserved
    have hpre : intersects e pre.flatten = false :=
      ((fadeCallback_observed _ _ e).1 hobserved).2
    have hcount0 : (fadeCallbacks (observeAnimated p) pre).visibleAdds.count e =
        (observeAnimated p).visibleAdds.count e := by
      rw [fadeCallbacks_eq_flatten, fadeCallback_count, intersections_eq_zero e _ hpre,
        Nat.add_zero]
    have helems0 : (fadeCallbacks (observeAnimated p) pre).elements[e]? =
        (observeAnimated p).elements[e]? := by
      rw [fadeCallbacks_eq_flatten, fadeCallback_elements, hpre]
      simp
    -- it leaves the element unobserved, so nothing after touches it
    have hgone : e ∉ (fadeCallback (fadeCallbacks (observeAnimated p) pre) cb).fadeObserved := by
      intro h
      have := ((fadeCallback_observed cb _ e).1 h).2
      rw [hint] at this
      exact absurd this (by simp)
    have hlater := delivered_unobserved post _ e hpost hgone
    have hpostint : intersects e post.flatten = false := by
      rw [intersects_eq_false_iff]
      intro en hen hhit
      obtain ⟨later, hl, hen2⟩ := List.mem_flatten.1 hen
      exact hlater later hl en hen2 hhit.2
    have hfinal : fadeCallbacks (observeAnimated p) (pre ++ cb :: post) =
        fadeCallback (fadeCallback (fadeCallbacks (observeAnimated p) pre) cb) post.flatten := by
      rw [fadeCallbacks_append, fadeCallbacks_cons, fadeCallbacks_eq_flatten post]
    refine ⟨hmem, hcount0, ?_, ?_, hgone, hlater, ?_, ?_⟩
    · rw [fadeCallback_count, hcount0]
    · rw [fadeCallback_elements, hint, if_pos rfl, helems0]
    · rw [hfinal, fadeCallback_elements, hpostint]
      simp
    · rw [hfinal, fadeCallback_count _ _ e, intersections_eq_zero e _ hpostint, Nat.add_zero]

/-- Witness of C4 as amended: one `.nav-card` element, reported first as not
intersecting, then in one batch as intersecting, not intersecting and
intersecting again. -/
theorem fade_in_one_callback_witness :
    delivered
      (observeAnimated
        { Page.blank ⟨true, true, false, []⟩ "/" "example.org" with
          elements := [⟨none, ["nav-card"], 0, none⟩] })
      [[⟨0, false⟩], [⟨0, true⟩, ⟨0, false⟩, ⟨0, true⟩]] = true ∧
    (fadeCallbacks
      (observeAnimated
        { Page.blank ⟨true, true, false, []⟩ "/" "example.org" with
          elements := [⟨none, ["nav-card"], 0, none⟩] })
      [[⟨0, false⟩], [⟨0, true⟩, ⟨0, false⟩, ⟨0, true⟩]]).elements[0]? =
      some ⟨none, ["nav-card", "fade-in", "visible"], 0, none⟩ :=
  ⟨by decide,
   ((fade_in_one_callback
    { Page.blank ⟨true, true, false, []⟩ "/" "example.org" with
      elements := [⟨none, ["nav-card"], 0, none⟩] }
    rfl [[⟨0, false⟩], [⟨0, true⟩, ⟨0, false⟩, ⟨0, true⟩]] (by decide) 0 (by decide)).2.2.2
      [[⟨0, false⟩]] [⟨0, true⟩, ⟨0, false⟩, ⟨0, true⟩] [] rfl (by decide)).2.2.2.2.2.2.1.trans
     (by decide)⟩

/-- Claim C4 fails as stated.  One `.nav-card` element is observed, and a single
callback carries three records of it, all for an element the observer holds
when the callback starts: intersecting, not intersecting, intersecting again.
The callback calls `classList.add('visible')` on the element twice. -/
theorem fade_in_added_twice_in_one_batch :
    0 ∈ animatedElements
      { Page.blank ⟨true, true, false, []⟩ "/" "example.org" with
        elements := [⟨none, ["nav-card"], 0, none⟩] } ∧
    delivered
      (observeAnimated
        { Page.blank ⟨true, true, false, []⟩ "/" "example.org" with
          elements := [⟨none, ["nav-card"], 0, none⟩] })
      [[⟨0, true⟩, ⟨0, false⟩, ⟨0, true⟩]] = true ∧
    (fadeCallbacks
      (observeAnimated
        { Page.blank ⟨true, true, false, []⟩ "/" "example.org" with
          elements := [⟨none, ["nav-card"], 0, none⟩] })
      [[⟨0, true⟩, ⟨0, false⟩, ⟨0, true⟩]]).visibleAdds.count 0 = 2 ∧
    ¬ (fadeCallbacks
      (observeAnimated
        { Page.blank ⟨true, true, false, []⟩ "/" "example.org" with
          elements := [⟨none, ["nav-card"], 0, none⟩] })
      [[⟨0, true⟩, ⟨0, false⟩, ⟨0, true⟩]]).visibleAdds.count 0 ≤
      (observeAnimated
        { Page.blank ⟨true, true, false, []⟩ "/" "example.org" with
          elements := [⟨none, ["nav-card"], 0, none⟩] }).visibleAdds.count 0 + 1 := by
  refine ⟨by decide, by decide, by decide, by decide⟩

/-! ## Smooth scroll -/

theorem isCssIdent_ne_nil (name : List Char) (h : isCssIdent name = true) : name ≠ [] := by
  rintro rfl
  simp [isCssIdent] at h

/-- For a fragment that is a CSS identifier the listener does what the lookup by
`id` says: with a target it suppresses the default, scrolls smoothly to
`offsetTop - navHeight - 20`, sets `tabindex` to `-1` and focuses, in that
order; without one it does nothing. -/
theorem anchorClick_of_ident (quirks : Bool) (navbar : Option Int) (elements : List Element)
    (other : String → Except JSError (Option Nat)) (name : List Char)
    (h : isCssIdent name = true) :
    anchorClick quirks navbar elements other (String.mk ('#' :: name)) =
      match findId quirks elements (String.mk name) with
      | some target =>
        { effects :=
            [ .preventDefault,
              .scrollTo (offsetTopOf elements target - navbar.getD 0 - 20) "smooth",
              .setAttribute target "tabindex" "-1",
              .focus target ]
          error := none }
      | none => { effects := [], error := none } := by
  have hne : String.mk ('#' :: name) ≠ "#" := by
    intro heq
    have := congrArg String.data heq
    simp only [List.cons.injEq, true_and] at this
    exact isCssIdent_ne_nil name h (by simpa using this)
  unfold anchorClick
  rw [if_neg hne]
  simp only [querySelector, h, if_true]
  cases findId quirks elements (String.mk name) with
  | none => rfl
  | some target => cases navbar <;> rfl

/-- The bare placeholder `#` is left alone. -/
theorem anchorClick_bare (quirks : Bool) (navbar : Option Int) (elements : List Element)
    (other : String → Except JSError (Option Nat)) :
    anchorClick quirks navbar elements other "#" = { effects := [], error := none } := by
  simp [anchorClick]

/-- Claim C7, evaluated where it fails.  The page has an element with
`id="1-intro"` and an anchor with `href="#1-intro"`.  The element named by the
fragment exists, yet the click listener suppresses nothing, scrolls nowhere
and moves no focus: `document.querySelector('#1-intro')` raises a
`SyntaxError`, because an ID selector cannot start with a digit.  This is so in
a standards-mode and in a quirks-mode document. -/
theorem smooth_scroll_digit_id_throws :
    findId false [⟨some "1-intro", [], 400, none⟩] "1-intro" = some 0 ∧
    ∀ (quirks : Bool) (other : String → Except JSError (Option Nat)),
      anchorClick quirks (some 64) [⟨some "1-intro", [], 400, none⟩] other "#1-intro" =
        { effects := [],
          error := some (.domSyntaxError "#1-intro is not a valid selector") } := by
  refine ⟨by decide, fun quirks other => ?_⟩
  rfl

/-! ## The `DOMContentLoaded` handler -/

theorem initLazyLoading_frame (p : Page) :
    (initLazyLoading p).runtime = p.runtime ∧ (initLazyLoading p).calls = p.calls ∧
    (initLazyLoading p).head = p.head ∧ (initLazyLoading p).pathname = p.pathname ∧
    (initLazyLoading p).hostname = p.hostname ∧
    (initLazyLoading p).smoothScroll = p.smoothScroll := by
  unfold initLazyLoading
  split
  · simp
  · split <;> simp

theorem reportWebVitals_frame (p : Page) :
    (reportWebVitals p).calls = p.calls ∧ (reportWebVitals p).head = p.head := by
  unfold reportWebVitals
  split <;> simp

theorem preload_ok_links (pathname : String) (head links : List HeadNode)
    (h : preloadCriticalResources pathname head = .ok links) :
    ∃ pages, links = head ++ prefetchLinks pages := by
  unfold preloadCriticalResources at h
  generalize (pageFlowGet (currentPage pathname)).or (.array []) = v at h
  cases v with
  | array pages =>
    simp only [nextPagesForEach, foldl_appendPrefetch, Except.ok.injEq] at h
    exact ⟨pages, h.symm⟩
  | undefined => simp [nextPagesForEach] at h
  | func name => simp [nextPagesForEach] at h
  | objectPrototype => simp [nextPagesForEach] at h

/-- Without `IntersectionObserver` the handler stops in `initScrollAnimations`:
it raises a `ReferenceError` after three calls, installs no smooth-scroll
listener and appends nothing but the style element to the head. -/
theorem domContentLoaded_without_observer (p : Page)
    (h : p.runtime.intersectionObserver = false) :
    (domContentLoaded p).2 = some (.referenceError "IntersectionObserver is not defined") ∧
    (domContentLoaded p).1.calls =
      p.calls ++ ["injectAnimationStyles", "initLazyLoading", "initScrollAnimations"] ∧
    (domContentLoaded p).1.smoothScroll = p.smoothScroll ∧
    (domContentLoaded p).1.head = p.head ++ [HeadNode.style animationStyles] := by
  have hf := initLazyLoading_frame
    (called "initLazyLoading" (injectAnimationStyles (called "injectAnimationStyles" p)))
  generalize hq : initLazyLoading (called "initLazyLoading"
    (injectAnimationStyles (called "injectAnimationStyles" p))) = q at hf
  obtain ⟨hrt, hcalls, hhead, -, -, hss⟩ := hf
  simp only [called, injectAnimationStyles] at hrt hcalls hhead hss
  have hio : q.runtime.intersectionObserver = false := by rw [hrt]; exact h
  unfold domContentLoaded
  simp only [hq]
  simp only [initScrollAnimations, called, hio, Bool.false_eq_true, if_false]
  refine ⟨trivial, ?_, ?_, ?_⟩
  · simp [hcalls]
  · simp [hss]
  · simp [hhead]

/-- Claim C8, evaluated where it fails.  On a page served at `/index.html` with
one anchor `#features`, in a runtime without `IntersectionObserver` and without
native lazy loading, the handler raises a `ReferenceError`; it has called
`injectAnimationStyles`, `initLazyLoading` and `initScrollAnimations` and
neither `initSmoothScroll` nor `preloadCriticalResources`: no click listener is
installed and no prefetch link is in the head. -/
theorem bootstrap_throws_without_observer :
    (domContentLoaded
      { Page.blank ⟨false, false, true, []⟩ "/index.html" "example.org" with
        anchors := ["#features"] }).2 =
      some (.referenceError "IntersectionObserver is not defined") ∧
    (domContentLoaded
      { Page.blank ⟨false, false, true, []⟩ "/index.html" "example.org" with
        anchors := ["#features"] }).1.calls =
      ["injectAnimationStyles", "initLazyLoading", "initScrollAnimations"] ∧
    (domContentLoaded
      { Page.blank ⟨false, false, true, []⟩ "/index.html" "example.org" with
        anchors := ["#features"] }).1.smoothScroll = [] ∧
    (domContentLoaded
      { Page.blank ⟨false, false, true, []⟩ "/index.html" "example.org" with
        anchors := ["#features"] }).1.head = [HeadNode.style animationStyles] :=
  domContentLoaded_without_observer
    { Page.blank ⟨false, false, true, []⟩ "/index.html" "example.org" with
      anchors := ["#features"] } rfl

theorem initLazyLoading_effects (p q : Page) (hr : q.runtime = p.runtime)
    (hi : q.images = p.images) (ho : q.imageObserved = p.imageObserved)
    (hc : q.console = p.console) :
    (initLazyLoading q).images = (initLazyLoading p).images ∧
    (initLazyLoading q).imageObserved = (initLazyLoading p).imageObserved ∧
    (initLazyLoading q).console = (initLazyLoading p).console := by
  unfold initLazyLoading lazyImages
  rw [hr, hi]
  split
  · simp [ho, hc]
  · split <;> simp [ho, hc]

theorem initLazyLoading_untouched (p : Page) :
    (initLazyLoading p).quirksMode = p.quirksMode ∧
    (initLazyLoading p).elements = p.elements ∧
    (initLazyLoading p).anchors = p.anchors ∧
    (initLazyLoading p).vitals = p.vitals := by
  unfold initLazyLoading
  split
  · simp
  · split <;> simp

theorem observeAnimated_effects (p q : Page) (hq : q.quirksMode = p.quirksMode)
    (he : q.elements = p.elements) :
    (observeAnimated q).elements = (observeAnimated p).elements ∧
    (observeAnimated q).fadeObserved = (observeAnimated p).fadeObserved := by
  simp [observeAnimated, animatedElements, hq, he]

theorem reportWebVitals_vitals (p q : Page) (hr : q.runtime = p.runtime)
    (hv : q.vitals = p.vitals) :
    (reportWebVitals q).vitals = (reportWebVitals p).vitals := by
  unfold reportWebVitals
  rw [hr, hv]
  split <;> simp [hv]

theorem reportWebVitals_untouched (p : Page) :
    (reportWebVitals p).images = p.images ∧
    (reportWebVitals p).imageObserved = p.imageObserved ∧
    (reportWebVitals p).elements = p.elements ∧
    (reportWebVitals p).fadeObserved = p.fadeObserved ∧
    (reportWebVitals p).smoothScroll = p.smoothScroll ∧
    (reportWebVitals p).console = p.console := by
  unfold reportWebVitals
  split <;> simp

/-- Whatever happens later in the handler, the style element is the first node
it appends to the head, and the only other nodes it appends are prefetch
links. -/
theorem domContentLoaded_style_first (p : Page) :
    ∃ pages, (domContentLoaded p).1.head =
      p.head ++ HeadNode.style animationStyles :: prefetchLinks pages := by
  have hf := initLazyLoading_frame
    (called "initLazyLoading" (injectAnimationStyles (called "injectAnimationStyles" p)))
  generalize hq : initLazyLoading (called "initLazyLoading"
    (injectAnimationStyles (called "injectAnimationStyles" p))) = q at hf
  obtain ⟨-, -, hhead, -, -, -⟩ := hf
  simp only [called, injectAnimationStyles] at hhead
  unfold domContentLoaded
  simp only [hq]
  cases hio : q.runtime.intersectionObserver
  · simp only [initScrollAnimations, called, hio, Bool.false_eq_true, if_false]
    exact ⟨[], by simp [hhead, prefetchLinks]⟩
  · simp only [initScrollAnimations, called, hio, if_true]
    simp only [initSmoothScroll, observeAnimated]
    cases hpre : preloadCriticalResources q.pathname q.head with
    | error err => exact ⟨[], by simp [hhead, prefetchLinks]⟩
    | ok links =>
      obtain ⟨pages, hlinks⟩ := preload_ok_links _ _ _ hpre
      refine ⟨pages, ?_⟩
      by_cases hl : q.hostname = "localhost"
      · simp [hl, (reportWebVitals_frame _).2, hlinks, hhead]
      · simp [hl, hlinks, hhead]

/-- When the handler completes, the page it leaves carries the effect of every
function it calls, each computed from the page the handler started on. -/
theorem domContentLoaded_effects (p : Page) (hok : (domContentLoaded p).2 = none) :
    initScrollAnimations p = .ok (observeAnimated p) ∧
    (domContentLoaded p).1.images = (initLazyLoading p).images ∧
    (domContentLoaded p).1.imageObserved = (initLazyLoading p).imageObserved ∧
    (domContentLoaded p).1.elements = (observeAnimated p).elements ∧
    (domContentLoaded p).1.fadeObserved = (observeAnimated p).fadeObserved ∧
    (domContentLoaded p).1.smoothScroll = (initSmoothScroll p).smoothScroll ∧
    preloadCriticalResources p.pathname (p.head ++ [HeadNode.style animationStyles]) =
      .ok (domContentLoaded p).1.head ∧
    (domContentLoaded p).1.vitals =
      (if p.hostname = "localhost" then (reportWebVitals p).vitals else p.vitals) ∧
    (domContentLoaded p).1.console =
      (initLazyLoading p).console ++ ["Smart Calendar Website Loaded - SEO Optimized"] := by
  have hf := initLazyLoading_frame
    (called "initLazyLoading" (injectAnimationStyles (called "injectAnimationStyles" p)))
  have hu := initLazyLoading_untouched
    (called "initLazyLoading" (injectAnimationStyles (called "injectAnimationStyles" p)))
  have he := initLazyLoading_effects p
    (called "initLazyLoading" (injectAnimationStyles (called "injectAnimationStyles" p)))
    rfl rfl rfl rfl
  generalize hq : initLazyLoading (called "initLazyLoading"
    (injectAnimationStyles (called "injectAnimationStyles" p))) = q at hf hu he
  obtain ⟨hrt, -, hhead, hpath, hhost, hss⟩ := hf
  obtain ⟨hqm, hel, hanc, hvit⟩ := hu
  obtain ⟨himg, himgobs, hcons⟩ := he
  simp only [called, injectAnimationStyles] at hrt hhead hpath hhost hss hqm hel hanc hvit
  unfold domContentLoaded at hok ⊢
  simp only [hq] at hok ⊢
  cases hio : q.runtime.intersectionObserver
  · simp [initScrollAnimations, called, hio] at hok
  · have hio2 : p.runtime.intersectionObserver = true := by rw [← hrt]; exact hio
    simp only [initScrollAnimations, called, hio, if_true] at hok ⊢
    simp only [initSmoothScroll, hashAnchors] at hok ⊢
    cases hpre : preloadCriticalResources q.pathname q.head with
    | error err => simp [observeAnimated, hpre] at hok
    | ok links =>
      have hobs := observeAnimated_effects p
        { q with calls := q.calls ++ ["initScrollAnimations"] } hqm hel
      have hpre2 : preloadCriticalResources p.pathname
          (p.head ++ [HeadNode.style animationStyles]) = .ok links := by
        rw [← hpath, ← hhead]; exact hpre
      have hvit2 := fun c : Page => reportWebVitals_vitals p c
      by_cases hl : q.hostname = "localhost"
      · have hl2 : p.hostname = "localhost" := by rw [← hhost]; exact hl
        have hu2 := reportWebVitals_untouched
        simp only [observeAnimated, hpre, hl, if_true]
        refine ⟨by simp [hio2], ?_, ?_, ?_, ?_, ?_, ?_, ?_, ?_⟩
        · simp [(hu2 _).1, himg]
        · simp [(hu2 _).2.1, himgobs]
        · simp only [(hu2 _).2.2.1]
          exact hobs.1
        · simp only [(hu2 _).2.2.2.1]
          exact hobs.2
        · simp [(hu2 _).2.2.2.2.1, hss, hanc]
        · simp [(reportWebVitals_frame _).2, hpre2]
        · rw [if_pos hl2]
          exact reportWebVitals_vitals p _ hrt hvit
        · simp [(hu2 _).2.2.2.2.2, hcons]
      · have hl2 : ¬ p.hostname = "localhost" := by rw [← hhost]; exact hl
        simp only [observeAnimated, hpre, hl, if_false]
        refine ⟨by simp [hio2], himg, himgobs, hobs.1, hobs.2, ?_, hpre2, ?_, ?_⟩
        · simp [hss, hanc]
        · rw [if_neg hl2]; exact hvit
        · simp [hcons]

/-- The trace of a completed handler. -/
theorem domContentLoaded_calls (p : Page) (hok : (domContentLoaded p).2 = none) :
    (domContentLoaded p).1.calls =
      p.calls ++
        ["injectAnimationStyles", "initLazyLoading", "initScrollAnimations",
          "initSmoothScroll", "preloadCriticalResources"] ++
        (if p.hostname = "localhost" then ["reportWebVitals"] else []) := by
  have hf := initLazyLoading_frame
    (called "initLazyLoading" (injectAnimationStyles (called "injectAnimationStyles" p)))
  generalize hq : initLazyLoading (called "initLazyLoading"
    (injectAnimationStyles (called "injectAnimationStyles" p))) = q at hf
  obtain ⟨hrt, hcalls, hhead, hpath, hhost, -⟩ := hf
  simp only [called, injectAnimationStyles] at hrt hcalls hhead hpath hhost
  unfold domContentLoaded at hok ⊢
  simp only [hq] at hok ⊢
  cases hio : q.runtime.intersectionObserver
  · simp [initScrollAnimations, called, hio] at hok
  · simp only [initScrollAnimations, called, hio, if_true] at hok ⊢
    simp only [initSmoothScroll, observeAnimated] at hok ⊢
    cases hpre : preloadCriticalResources q.pathname q.head with
    | error err => simp [hpre] at hok
    | ok links =>
      simp only [hpre, hhost]
      by_cases hl : p.hostname = "localhost"
      · simp [hl, (reportWebVitals_frame _).1, hcalls]
      · simp [hl, hcalls]

/-- Claim C9.  The style element is the first node the handler appends to the
head, whatever happens after: the head it leaves is the head it found, then the
style element, then prefetch links only.  When the handler completes without an
exception, the functions it has called are `injectAnimationStyles`,
`initLazyLoading`, `initScrollAnimations`, `initSmoothScroll` and
`preloadCriticalResources`, once each and in that order, followed by
`reportWebVitals` exactly when the host name is `localhost`; and the page it
leaves carries the effect of each of them: the images and the image observer
are as `initLazyLoading` leaves them, the elements and the fade-in observer as
`initScrollAnimations` leaves them, the click listeners as `initSmoothScroll`
leaves them, the head is what `preloadCriticalResources` makes of the head
that already ends with the style element, the vitals subscriptions are those of
`reportWebVitals` on `localhost` and unchanged elsewhere, and the console ends
with the final message. -/
theorem bootstrap_order (p : Page) :
    (∃ pages, (domContentLoaded p).1.head =
      p.head ++ HeadNode.style animationStyles :: prefetchLinks pages) ∧
    ((domContentLoaded p).2 = none →
      (domContentLoaded p).1.calls =
        p.calls ++
          ["injectAnimationStyles", "initLazyLoading", "initScrollAnimations",
            "initSmoothScroll", "preloadCriticalResources"] ++
          (if p.hostname = "localhost" then ["reportWebVitals"] else []) ∧
      initScrollAnimations p = .ok (observeAnimated p) ∧
      (domContentLoaded p).1.images = (initLazyLoading p).images ∧
      (domContentLoaded p).1.imageObserved = (initLazyLoading p).imageObserved ∧
      (domContentLoaded p).1.elements = (observeAnimated p).elements ∧
      (domContentLoaded p).1.fadeObserved = (observeAnimated p).fadeObserved ∧
      (domContentLoaded p).1.smoothScroll = (initSmoothScroll p).smoothScroll ∧
      preloadCriticalResources p.pathname (p.head ++ [HeadNode.style animationStyles]) =
        .ok (domContentLoaded p).1.head ∧
      (domContentLoaded p).1.vitals =
        (if p.hostname = "localhost" then (reportWebVitals p).vitals else p.vitals) ∧
      (domContentLoaded p).1.console =
        (initLazyLoading p).console ++ ["Smart Calendar Website Loaded - SEO Optimized"]) :=
  ⟨domContentLoaded_style_first p,
   fun hok => ⟨domContentLoaded_calls p hok, domContentLoaded_effects p hok⟩⟩

/-- Witness of C9: the page `/market.html` on `localhost`, with a lazy image, a
`.nav-card` element and an anchor `#top`, in a runtime with an
`IntersectionObserver` and a `PerformanceObserver` and without native lazy
loading. -/
theorem bootstrap_order_witness :
    (domContentLoaded
      { Page.blank ⟨false, true, true, ["first-input"]⟩ "/market.html" "localhost" with
        images := [⟨true, some "photo.jpg", none, []⟩]
        elements := [⟨none, ["nav-card"], 0, none⟩]
        anchors := ["#top"] }).2 = none ∧
    (domContentLoaded
      { Page.blank ⟨false, true, true, ["first-input"]⟩ "/market.html" "localhost" with
        images := [⟨true, some "photo.jpg", none, []⟩]
        elements := [⟨none, ["nav-card"], 0, none⟩]
        anchors := ["#top"] }).1.calls =
      ["injectAnimationStyles", "initLazyLoading", "initScrollAnimations",
        "initSmoothScroll", "preloadCriticalResources", "reportWebVitals"] :=
  ⟨rfl,
   ((bootstrap_order
      { Page.blank ⟨false, true, true, ["first-input"]⟩ "/market.html" "localhost" with
        images := [⟨true, some "photo.jpg", none, []⟩]
        elements := [⟨none, ["nav-card"], 0, none⟩]
        anchors := ["#top"] }).2 rfl).1⟩

end SmartCalendar
